import Mathlib

/-!
Shallow embedding of `src/cfm.py`, a continuous fee minting simulation.

Timestamps, transaction fees and configuration values are modelled as
rationals, idealizing Python floats exactly; share quantities, which flow
through the real-exponent power `pow(inflation_rate, period_slice)`
(cfm.py line 144), are modelled as real numbers with `Real.rpow`.
Python's fallible float division `1.0 / (1.0 - mgmt_fee)` (line 75) is
modelled with `Option`.  One iteration of the `while` loop (lines 113-189)
is the function `step`; a run is `step` folded over the stream of
`random.random()` draws.
-/

/-- Python `int(q)` applied to a float quotient: truncation toward zero. -/
def pyInt (q : ℚ) : ℤ := if q < 0 then -⌊-q⌋ else ⌊q⌋

/-- Configuration, cfm.py lines 59-81: the user parameters of a run.
`period` is in days, `mint_period` and `mint_period_noise` in seconds. -/
structure Config where
  mgmt_fee : ℚ
  period : ℤ
  mint_period : ℤ
  mint_period_noise : ℤ
  clock_drift : ℚ
  fee_tolerance : ℚ

/-- cfm.py lines 21-25: the `percentage` argument type raises unless
`0.0 <= x <= 1.0`. -/
def percentageOk (x : ℚ) : Bool := !(decide (x < 0) || decide (1 < x))

/-- cfm.py lines 28-32: the `positive_int` argument type raises unless
`x > 0`. -/
def positiveIntOk (x : ℤ) : Bool := !(decide (x ≤ 0))

/-- cfm.py lines 83-84: the startup check rejects only `noise > mint`. -/
def noiseCheckOk (noise mint_p : ℤ) : Bool := !(decide (mint_p < noise))

/-- The whole startup validation exactly as the code performs it:
`--fee` through `percentage`, `--period`, `--mint`, `--noise` through
`positive_int`, then the line-83 noise check. -/
def configAccepted (fee : ℚ) (period mint_p noise : ℤ) : Bool :=
  percentageOk fee && positiveIntOk period && positiveIntOk mint_p &&
    positiveIntOk noise && noiseCheckOk noise mint_p

/-- A configuration the startup validation accepts, as a proposition. -/
def Config.valid (cfg : Config) : Prop :=
  0 ≤ cfg.mgmt_fee ∧ cfg.mgmt_fee ≤ 1 ∧ 0 < cfg.period ∧ 0 < cfg.mint_period ∧
    0 < cfg.mint_period_noise ∧ cfg.mint_period_noise ≤ cfg.mint_period

/-- cfm.py line 75: `inflation_rate = (1.0 / (1.0 - mgmt_fee))`.  Python
float division raises `ZeroDivisionError` when the denominator is zero,
so the computation is modelled as fallible. -/
def inflation_rate (fee : ℚ) : Option ℚ :=
  if 1 - fee = 0 then none else some (1 / (1 - fee))

/-- cfm.py line 76: the management fee period converted from days to
seconds. -/
def mgmt_fee_period (cfg : Config) : ℚ := (cfg.period : ℚ) * 60 * 60 * 24

-- cfm.py lines 40-46: fixed constants of the simulation.
def fund_value : ℚ := 4000000
def init_shares : ℚ := 1000
def customer_shares : ℚ := 25
def sim_periods : ℚ := 10
def xlm_price : ℚ := 45 / 100
def stroop_per_tx : ℚ := 100
def stroop_per_xlm : ℚ := 1 / 10000

/-- cfm.py line 149: `this_tx_fee = stroop_per_xlm * xlm_price * stroop_per_tx`,
the fixed USD cost per mint transaction. -/
def this_tx_fee : ℚ := stroop_per_xlm * xlm_price * stroop_per_tx

/-- The mutable loop state of cfm.py lines 103-111.  `mint` is the
carried value of the Python variable `mint` (line 111), which the
bootstrap branch reads without assigning. -/
structure SimState where
  fund_shares : ℝ
  this_timestamp : ℚ
  last_timestamp : ℚ
  earnings : ℝ
  tx_fees : ℚ
  num_mints : ℕ
  num_skips : ℕ
  mint : ℝ

/-- Everything one loop iteration computes or reports about its tick.
`snapped` is the line-124 condition `this_period > last_period`;
`new_period` is the Python variable of the same name after the bootstrap
override; `summary_num_mints` / `summary_num_skips` are the counter
values at the moment the period summary would be printed (line 181),
before the line 184-185 reset. -/
structure TickRecord where
  wait : ℚ
  clock : ℚ
  this_period : ℤ
  snapped : Bool
  new_period : Bool
  bootstrap : Bool
  time_delta : ℚ
  skipped : Bool
  usd_per_day : ℚ
  mint : ℝ
  growth : ℝ
  summary_num_mints : ℕ
  summary_num_skips : ℕ
  display_time : ℚ

/-- cfm.py lines 116-117: `wait = mint_period + r * mint_period_noise`
with `r = 2*u - 1`, `u` the draw of `random.random()`. -/
def waitTime (cfg : Config) (u : ℚ) : ℚ :=
  (cfg.mint_period : ℚ) + (u * 2 - 1) * (cfg.mint_period_noise : ℚ)

/-- cfm.py line 118: the proposed clock before the boundary check. -/
def proposedTimestamp (cfg : Config) (u : ℚ) (s : SimState) : ℚ :=
  s.this_timestamp + waitTime cfg u

/-- cfm.py line 122: `this_period = int(this_timestamp / mgmt_fee_period)`,
computed on the proposed clock. -/
def thisPeriod (cfg : Config) (u : ℚ) (s : SimState) : ℤ :=
  pyInt (proposedTimestamp cfg u s / mgmt_fee_period cfg)

/-- cfm.py line 123: `last_period = int(last_timestamp / mgmt_fee_period)`. -/
def lastPeriodOf (cfg : Config) (s : SimState) : ℤ :=
  pyInt (s.last_timestamp / mgmt_fee_period cfg)

/-- cfm.py lines 124-125: the tick's final clock, snapped to the exact
period end when the proposed clock crosses a boundary. -/
def tickClock (cfg : Config) (u : ℚ) (s : SimState) : ℚ :=
  if lastPeriodOf cfg s < thisPeriod cfg u s then
    (thisPeriod cfg u s : ℚ) * mgmt_fee_period cfg
  else proposedTimestamp cfg u s

/-- cfm.py lines 129-130: raw delta since the last committed tick, scaled
by the clock drift. -/
def timeDelta (cfg : Config) (u : ℚ) (s : SimState) : ℚ :=
  (tickClock cfg u s - s.last_timestamp) * (1 + cfg.clock_drift)

/-- cfm.py line 143: `period_slice = time_delta / mgmt_fee_period`. -/
def periodSlice (cfg : Config) (u : ℚ) (s : SimState) : ℚ :=
  timeDelta cfg u s / mgmt_fee_period cfg

/-- cfm.py line 144: `shares_scalar = pow(inflation_rate, period_slice)`,
the per-tick growth factor, with the float `pow` idealized as `Real.rpow`. -/
noncomputable def sharesScalar (cfg : Config) (rate u : ℚ) (s : SimState) : ℝ :=
  (rate : ℝ) ^ ((periodSlice cfg u s : ℚ) : ℝ)

/-- cfm.py line 150: elapsed simulated days at this tick's clock. -/
def simDays (cfg : Config) (u : ℚ) (s : SimState) : ℚ :=
  tickClock cfg u s / (60 * 60 * 24)

/-- cfm.py line 151: projected fee run-rate if this mint's fee were paid. -/
def usdPerDay (cfg : Config) (u : ℚ) (s : SimState) : ℚ :=
  (s.tx_fees + this_tx_fee) / simDays cfg u s

/-- One iteration of the cfm.py while loop (lines 113-189), from the state
at the top of the loop to the state after line 189, together with the
record of what the iteration computed.  `rate` is the precomputed
`inflation_rate`, `u` the iteration's `random.random()` draw.  The three
branches are: bootstrap (line 134 `if not last_timestamp`), throttled skip
(line 154 `if usd_per_day > fee_tolerance`), and committed mint. -/
noncomputable def step (cfg : Config) (rate u : ℚ) (s : SimState) : SimState × TickRecord :=
  if s.last_timestamp = 0 then
    ({ fund_shares := s.fund_shares + s.mint,
       this_timestamp := tickClock cfg u s,
       last_timestamp := tickClock cfg u s,
       earnings := s.earnings + s.mint * ((fund_value : ℝ) / (s.fund_shares + s.mint)),
       tx_fees := s.tx_fees,
       num_mints := 0,
       num_skips := 0,
       mint := s.mint },
     { wait := waitTime cfg u,
       clock := tickClock cfg u s,
       this_period := thisPeriod cfg u s,
       snapped := decide (lastPeriodOf cfg s < thisPeriod cfg u s),
       new_period := true,
       bootstrap := true,
       time_delta := timeDelta cfg u s,
       skipped := false,
       usd_per_day := 0,
       mint := s.mint,
       growth := 1,
       summary_num_mints := s.num_mints,
       summary_num_skips := s.num_skips,
       display_time := s.last_timestamp })
  else if cfg.fee_tolerance < usdPerDay cfg u s then
    ({ fund_shares := s.fund_shares + 0,
       this_timestamp := tickClock cfg u s,
       last_timestamp :=
         if lastPeriodOf cfg s < thisPeriod cfg u s then tickClock cfg u s
         else s.last_timestamp,
       earnings := s.earnings + 0 * ((fund_value : ℝ) / (s.fund_shares + 0)),
       tx_fees := s.tx_fees,
       num_mints := if lastPeriodOf cfg s < thisPeriod cfg u s then 0 else s.num_mints,
       num_skips := if lastPeriodOf cfg s < thisPeriod cfg u s then 0 else s.num_skips + 1,
       mint := 0 },
     { wait := waitTime cfg u,
       clock := tickClock cfg u s,
       this_period := thisPeriod cfg u s,
       snapped := decide (lastPeriodOf cfg s < thisPeriod cfg u s),
       new_period := decide (lastPeriodOf cfg s < thisPeriod cfg u s),
       bootstrap := false,
       time_delta := timeDelta cfg u s,
       skipped := true,
       usd_per_day := usdPerDay cfg u s,
       mint := 0,
       growth := sharesScalar cfg rate u s,
       summary_num_mints := s.num_mints,
       summary_num_skips := s.num_skips + 1,
       display_time := tickClock cfg u s })
  else
    ({ fund_shares := s.fund_shares + s.fund_shares * (sharesScalar cfg rate u s - 1),
       this_timestamp := tickClock cfg u s,
       last_timestamp := tickClock cfg u s,
       earnings := s.earnings + s.fund_shares * (sharesScalar cfg rate u s - 1) *
         ((fund_value : ℝ) / (s.fund_shares + s.fund_shares * (sharesScalar cfg rate u s - 1))),
       tx_fees := s.tx_fees + this_tx_fee,
       num_mints := if lastPeriodOf cfg s < thisPeriod cfg u s then 0 else s.num_mints + 1,
       num_skips := if lastPeriodOf cfg s < thisPeriod cfg u s then 0 else s.num_skips,
       mint := s.fund_shares * (sharesScalar cfg rate u s - 1) },
     { wait := waitTime cfg u,
       clock := tickClock cfg u s,
       this_period := thisPeriod cfg u s,
       snapped := decide (lastPeriodOf cfg s < thisPeriod cfg u s),
       new_period := decide (lastPeriodOf cfg s < thisPeriod cfg u s),
       bootstrap := false,
       time_delta := timeDelta cfg u s,
       skipped := false,
       usd_per_day := usdPerDay cfg u s,
       mint := s.fund_shares * (sharesScalar cfg rate u s - 1),
       growth := sharesScalar cfg rate u s,
       summary_num_mints := s.num_mints + 1,
       summary_num_skips := s.num_skips,
       display_time := tickClock cfg u s })

/-- cfm.py lines 103-111: the state at simulation start. -/
noncomputable def initState : SimState :=
  { fund_shares := (init_shares : ℝ),
    this_timestamp := 0,
    last_timestamp := 0,
    earnings := 0,
    tx_fees := 0,
    num_mints := 0,
    num_skips := 0,
    mint := 0 }

/-- The tick records produced by running the loop over a list of draws. -/
noncomputable def runTrace (cfg : Config) (rate : ℚ) : SimState → List ℚ → List TickRecord
  | _, [] => []
  | s, u :: us => (step cfg rate u s).2 :: runTrace cfg rate (step cfg rate u s).1 us

/-- The state after running the loop over a list of draws. -/
noncomputable def runState (cfg : Config) (rate : ℚ) : SimState → List ℚ → SimState
  | s, [] => s
  | s, u :: us => runState cfg rate (step cfg rate u s).1 us

/-- All states visited while running the loop, starting state included. -/
noncomputable def runStates (cfg : Config) (rate : ℚ) : SimState → List ℚ → List SimState
  | s, [] => [s]
  | s, u :: us => s :: runStates cfg rate (step cfg rate u s).1 us

/-- The reachability invariant of the loop: the committed clock is
non-negative, never ahead of the current clock, and the current clock has
not crossed past the end of the committed clock's fee period without
being snapped there. -/
def LoopInv (cfg : Config) (s : SimState) : Prop :=
  0 ≤ s.last_timestamp ∧ s.last_timestamp ≤ s.this_timestamp ∧
    s.this_timestamp < ((lastPeriodOf cfg s + 1 : ℤ) : ℚ) * mgmt_fee_period cfg

/-- Auxiliary invariant for share monotonicity: shares never fell below
`init_shares`, and while the bootstrap has not happened the carried
`mint` variable still holds its initial 0. -/
def MonSt (s : SimState) : Prop :=
  ((init_shares : ℚ) : ℝ) ≤ s.fund_shares ∧ (s.last_timestamp = 0 → s.mint = 0)

-- Concrete scenario configurations used by witnesses and counterexamples.

/-- Scenario configuration: 2 percent fee over a 1-day period, a 50000 s
mint interval with 1 s of jitter, no drift, and a tolerance so large that
nothing is throttled.  Its fee is 1/2 to make the inflation rate exactly 2. -/
def cfg0 : Config :=
  { mgmt_fee := 1/2, period := 1, mint_period := 50000, mint_period_noise := 1,
    clock_drift := 0, fee_tolerance := 1000000 }

/-- `cfg0` with a zero fee tolerance, so every post-bootstrap tick is
throttled. -/
def cfgT : Config :=
  { mgmt_fee := 1/2, period := 1, mint_period := 50000, mint_period_noise := 1,
    clock_drift := 0, fee_tolerance := 0 }

/-- `cfg0` with clock drift -2, making effective time deltas negative. -/
def cfgD : Config :=
  { mgmt_fee := 1/2, period := 1, mint_period := 50000, mint_period_noise := 1,
    clock_drift := -2, fee_tolerance := 1000000 }

/-- `cfg0` with a mint interval longer than two fee periods, so one wait
crosses several period boundaries at once. -/
def cfg6 : Config :=
  { mgmt_fee := 1/2, period := 1, mint_period := 200000, mint_period_noise := 1,
    clock_drift := 0, fee_tolerance := 1000000 }

/-- A configuration with `noise = mint` (accepted by the line-83 check),
under which a draw of `u = 0` gives a zero wait. -/
def cfgN : Config :=
  { mgmt_fee := 1/2, period := 1, mint_period := 300, mint_period_noise := 300,
    clock_drift := 0, fee_tolerance := 1000000 }

/-- A mid-run state sitting exactly on the first fee-period boundary of
`cfg0` (committed clock 86400 s, one boundary fee already paid), used as
the start of an interior fee-period segment. -/
def sB0 : SimState :=
  { fund_shares := 1000,
    this_timestamp := 86400,
    last_timestamp := 86400,
    earnings := 0,
    tx_fees := 9/2000,
    num_mints := 0,
    num_skips := 0,
    mint := 0 }

-- Basic facts about `pyInt`.

theorem pyInt_of_nonneg {q : ℚ} (h : 0 ≤ q) : pyInt q = ⌊q⌋ := by
  rw [pyInt, if_neg (not_lt.mpr h)]

theorem pyInt_eq_of {q : ℚ} {n : ℤ} (h0 : 0 ≤ q) (h1 : (n : ℚ) ≤ q) (h2 : q < n + 1) :
    pyInt q = n := by
  rw [pyInt_of_nonneg h0]
  exact Int.floor_eq_iff.mpr ⟨h1, h2⟩

theorem pyInt_nonneg {q : ℚ} (h : 0 ≤ q) : 0 ≤ pyInt q := by
  rw [pyInt_of_nonneg h]
  exact Int.floor_nonneg.mpr h

theorem pyInt_div_mul_le {q P : ℚ} (h : 0 ≤ q) (hP : 0 < P) :
    (pyInt (q / P) : ℚ) * P ≤ q := by
  rw [pyInt_of_nonneg (div_nonneg h hP.le)]
  calc (⌊q / P⌋ : ℚ) * P ≤ (q / P) * P :=
        mul_le_mul_of_nonneg_right (Int.floor_le (q / P)) hP.le
    _ = q := div_mul_cancel₀ q hP.ne'

theorem lt_pyInt_div_succ_mul {q P : ℚ} (h : 0 ≤ q) (hP : 0 < P) :
    q < ((pyInt (q / P) + 1 : ℤ) : ℚ) * P := by
  rw [pyInt_of_nonneg (div_nonneg h hP.le)]
  have h2 : q / P < ((⌊q / P⌋ + 1 : ℤ) : ℚ) := by
    push_cast
    exact Int.lt_floor_add_one (q / P)
  calc q = (q / P) * P := (div_mul_cancel₀ q hP.ne').symm
    _ < ((⌊q / P⌋ + 1 : ℤ) : ℚ) * P := mul_lt_mul_of_pos_right h2 hP

theorem pyInt_div_mono {a b P : ℚ} (ha : 0 ≤ a) (hab : a ≤ b) (hP : 0 < P) :
    pyInt (a / P) ≤ pyInt (b / P) := by
  rw [pyInt_of_nonneg (div_nonneg ha hP.le),
    pyInt_of_nonneg (div_nonneg (ha.trans hab) hP.le)]
  exact Int.floor_mono (by gcongr)

theorem pyInt_intCast_mul_div {P : ℚ} (hP : 0 < P) {n : ℤ} (hn : 0 ≤ n) :
    pyInt ((n : ℚ) * P / P) = n := by
  rw [mul_div_assoc, div_self hP.ne', mul_one,
    pyInt_of_nonneg (by exact_mod_cast hn), Int.floor_intCast]

-- Facts about accepted configurations.

theorem mgmt_fee_period_pos {cfg : Config} (hv : cfg.valid) : 0 < mgmt_fee_period cfg := by
  have h : (0 : ℚ) < (cfg.period : ℚ) := by exact_mod_cast hv.2.2.1
  have he : mgmt_fee_period cfg = (cfg.period : ℚ) * 86400 := by
    unfold mgmt_fee_period; ring
  rw [he]
  exact mul_pos h (by norm_num)

theorem waitTime_nonneg {cfg : Config} (hv : cfg.valid) {u : ℚ} (hu : 0 ≤ u) :
    0 ≤ waitTime cfg u := by
  have hn : (0 : ℚ) < (cfg.mint_period_noise : ℚ) := by exact_mod_cast hv.2.2.2.2.1
  have hnm : (cfg.mint_period_noise : ℚ) ≤ (cfg.mint_period : ℚ) := by
    exact_mod_cast hv.2.2.2.2.2
  have h1 : (-1 : ℚ) ≤ u * 2 - 1 := by linarith
  have h2 : (-1 : ℚ) * (cfg.mint_period_noise : ℚ) ≤
      (u * 2 - 1) * (cfg.mint_period_noise : ℚ) :=
    mul_le_mul_of_nonneg_right h1 hn.le
  unfold waitTime
  linarith

theorem one_le_rate {cfg : Config} {rate : ℚ} (hv : cfg.valid)
    (hr : inflation_rate cfg.mgmt_fee = some rate) : 1 ≤ rate := by
  unfold inflation_rate at hr
  by_cases h : 1 - cfg.mgmt_fee = 0
  · rw [if_pos h] at hr; exact absurd hr (by simp)
  · rw [if_neg h] at hr
    have hrr : rate = 1 / (1 - cfg.mgmt_fee) := (Option.some.injEq _ _ ▸ hr).symm
    have hlt : 0 < 1 - cfg.mgmt_fee := lt_of_le_of_ne (by linarith [hv.2.1]) (Ne.symm h)
    rw [hrr]
    rw [le_div_iff₀ hlt]
    linarith [hv.1]

theorem rate_pos {cfg : Config} {rate : ℚ} (hv : cfg.valid)
    (hr : inflation_rate cfg.mgmt_fee = some rate) : 0 < rate :=
  lt_of_lt_of_le one_pos (one_le_rate hv hr)

-- Projections of `step` that hold in every branch.

theorem step_clock (cfg : Config) (rate u : ℚ) (s : SimState) :
    (step cfg rate u s).2.clock = tickClock cfg u s := by
  unfold step
  split
  · rfl
  · split <;> rfl

theorem step_this (cfg : Config) (rate u : ℚ) (s : SimState) :
    (step cfg rate u s).1.this_timestamp = tickClock cfg u s := by
  unfold step
  split
  · rfl
  · split <;> rfl

theorem step_this_period (cfg : Config) (rate u : ℚ) (s : SimState) :
    (step cfg rate u s).2.this_period = thisPeriod cfg u s := by
  unfold step
  split
  · rfl
  · split <;> rfl

theorem step_snapped (cfg : Config) (rate u : ℚ) (s : SimState) :
    (step cfg rate u s).2.snapped = decide (lastPeriodOf cfg s < thisPeriod cfg u s) := by
  unfold step
  split
  · rfl
  · split <;> rfl

-- Ordering facts about the tick clock.

theorem tickClock_ge_last {cfg : Config} (hv : cfg.valid) {u : ℚ} (hu : 0 ≤ u)
    {s : SimState} (hs : LoopInv cfg s) : s.last_timestamp ≤ tickClock cfg u s := by
  obtain ⟨h0, h1, h2⟩ := hs
  have hP := mgmt_fee_period_pos hv
  unfold tickClock
  split
  · next hlt =>
    have hc : ((lastPeriodOf cfg s + 1 : ℤ) : ℚ) ≤ ((thisPeriod cfg u s : ℤ) : ℚ) := by
      exact_mod_cast hlt
    have h3 := mul_le_mul_of_nonneg_right hc hP.le
    linarith
  · have hw := waitTime_nonneg hv hu
    unfold proposedTimestamp
    linarith

theorem tickClock_ge_this {cfg : Config} (hv : cfg.valid) {u : ℚ} (hu : 0 ≤ u)
    {s : SimState} (hs : LoopInv cfg s) : s.this_timestamp ≤ tickClock cfg u s := by
  obtain ⟨h0, h1, h2⟩ := hs
  have hP := mgmt_fee_period_pos hv
  unfold tickClock
  split
  · next hlt =>
    have hc : ((lastPeriodOf cfg s + 1 : ℤ) : ℚ) ≤ ((thisPeriod cfg u s : ℤ) : ℚ) := by
      exact_mod_cast hlt
    have h3 := mul_le_mul_of_nonneg_right hc hP.le
    linarith
  · have hw := waitTime_nonneg hv hu
    unfold proposedTimestamp
    linarith

theorem tickClock_nonneg {cfg : Config} (hv : cfg.valid) {u : ℚ} (hu : 0 ≤ u)
    {s : SimState} (hs : LoopInv cfg s) : 0 ≤ tickClock cfg u s :=
  le_trans hs.1 (tickClock_ge_last hv hu hs)

theorem proposedTimestamp_nonneg {cfg : Config} (hv : cfg.valid) {u : ℚ} (hu : 0 ≤ u)
    {s : SimState} (hs : LoopInv cfg s) : 0 ≤ proposedTimestamp cfg u s := by
  have hw := waitTime_nonneg hv hu
  have := hs.1.trans hs.2.1
  unfold proposedTimestamp
  linarith

theorem lastPeriodOf_nonneg {cfg : Config} (hv : cfg.valid) {s : SimState}
    (hs : LoopInv cfg s) : 0 ≤ lastPeriodOf cfg s :=
  pyInt_nonneg (div_nonneg hs.1 (mgmt_fee_period_pos hv).le)

-- Preservation of the loop invariant.

theorem loopInv_diag {cfg : Config} (hP : 0 < mgmt_fee_period cfg) {a : ℚ} (ha : 0 ≤ a)
    (s' : SimState) (h1 : s'.last_timestamp = a) (h2 : s'.this_timestamp = a) :
    LoopInv cfg s' := by
  refine ⟨by rw [h1]; exact ha, by rw [h1, h2], ?_⟩
  rw [h2]
  unfold lastPeriodOf
  rw [h1]
  exact lt_pyInt_div_succ_mul ha hP

theorem stepInv {cfg : Config} (hv : cfg.valid) (rate : ℚ) {u : ℚ} (hu : 0 ≤ u)
    {s : SimState} (hs : LoopInv cfg s) : LoopInv cfg (step cfg rate u s).1 := by
  have hP := mgmt_fee_period_pos hv
  have hc0 := tickClock_nonneg hv hu hs
  unfold step
  split
  · exact loopInv_diag hP hc0 _ rfl rfl
  · split
    · by_cases hlt : lastPeriodOf cfg s < thisPeriod cfg u s
      · exact loopInv_diag hP hc0 _ (by simp [if_pos hlt]) rfl
      · have hcp : tickClock cfg u s = proposedTimestamp cfg u s := by
          unfold tickClock; rw [if_neg hlt]
        have hp0 := proposedTimestamp_nonneg hv hu hs
        refine ⟨?_, ?_, ?_⟩
        · simp only [if_neg hlt]
          exact hs.1
        · simp only [if_neg hlt]
          exact tickClock_ge_last hv hu hs
        · have hlt' : ¬ pyInt (s.last_timestamp / mgmt_fee_period cfg) < thisPeriod cfg u s := hlt
          simp only [lastPeriodOf, if_neg hlt']
          rw [hcp]
          have hb := lt_pyInt_div_succ_mul hp0 hP
          have htp := not_lt.mp hlt
          unfold thisPeriod lastPeriodOf at htp
          have htpq : ((pyInt (proposedTimestamp cfg u s / mgmt_fee_period cfg) + 1 : ℤ) : ℚ)
              ≤ ((pyInt (s.last_timestamp / mgmt_fee_period cfg) + 1 : ℤ) : ℚ) := by
            exact_mod_cast Int.add_le_add_right htp 1
          have hmul := mul_le_mul_of_nonneg_right htpq hP.le
          linarith
    · exact loopInv_diag hP hc0 _ rfl rfl

theorem loopInv_init {cfg : Config} (hv : cfg.valid) : LoopInv cfg initState := by
  have hP := mgmt_fee_period_pos hv
  exact loopInv_diag hP le_rfl initState rfl rfl

-- Branch equations for `step`: bootstrap, throttled skip, committed mint.

theorem step_boot_eq (cfg : Config) (rate u : ℚ) (s : SimState) (h : s.last_timestamp = 0) :
    step cfg rate u s =
    ({ fund_shares := s.fund_shares + s.mint,
       this_timestamp := tickClock cfg u s,
       last_timestamp := tickClock cfg u s,
       earnings := s.earnings + s.mint * ((fund_value : ℝ) / (s.fund_shares + s.mint)),
       tx_fees := s.tx_fees,
       num_mints := 0,
       num_skips := 0,
       mint := s.mint },
     { wait := waitTime cfg u,
       clock := tickClock cfg u s,
       this_period := thisPeriod cfg u s,
       snapped := decide (lastPeriodOf cfg s < thisPeriod cfg u s),
       new_period := true,
       bootstrap := true,
       time_delta := timeDelta cfg u s,
       skipped := false,
       usd_per_day := 0,
       mint := s.mint,
       growth := 1,
       summary_num_mints := s.num_mints,
       summary_num_skips := s.num_skips,
       display_time := s.last_timestamp }) := by
  unfold step
  rw [if_pos h]

theorem step_skip_eq (cfg : Config) (rate u : ℚ) (s : SimState)
    (h1 : ¬ s.last_timestamp = 0) (h2 : cfg.fee_tolerance < usdPerDay cfg u s) :
    step cfg rate u s =
    ({ fund_shares := s.fund_shares + 0,
       this_timestamp := tickClock cfg u s,
       last_timestamp :=
         if lastPeriodOf cfg s < thisPeriod cfg u s then tickClock cfg u s
         else s.last_timestamp,
       earnings := s.earnings + 0 * ((fund_value : ℝ) / (s.fund_shares + 0)),
       tx_fees := s.tx_fees,
       num_mints := if lastPeriodOf cfg s < thisPeriod cfg u s then 0 else s.num_mints,
       num_skips := if lastPeriodOf cfg s < thisPeriod cfg u s then 0 else s.num_skips + 1,
       mint := 0 },
     { wait := waitTime cfg u,
       clock := tickClock cfg u s,
       this_period := thisPeriod cfg u s,
       snapped := decide (lastPeriodOf cfg s < thisPeriod cfg u s),
       new_period := decide (lastPeriodOf cfg s < thisPeriod cfg u s),
       bootstrap := false,
       time_delta := timeDelta cfg u s,
       skipped := true,
       usd_per_day := usdPerDay cfg u s,
       mint := 0,
       growth := sharesScalar cfg rate u s,
       summary_num_mints := s.num_mints,
       summary_num_skips := s.num_skips + 1,
       display_time := tickClock cfg u s }) := by
  unfold step
  rw [if_neg h1, if_pos h2]

theorem step_commit_eq (cfg : Config) (rate u : ℚ) (s : SimState)
    (h1 : ¬ s.last_timestamp = 0) (h2 : ¬ cfg.fee_tolerance < usdPerDay cfg u s) :
    step cfg rate u s =
    ({ fund_shares := s.fund_shares + s.fund_shares * (sharesScalar cfg rate u s - 1),
       this_timestamp := tickClock cfg u s,
       last_timestamp := tickClock cfg u s,
       earnings := s.earnings + s.fund_shares * (sharesScalar cfg rate u s - 1) *
         ((fund_value : ℝ) / (s.fund_shares + s.fund_shares * (sharesScalar cfg rate u s - 1))),
       tx_fees := s.tx_fees + this_tx_fee,
       num_mints := if lastPeriodOf cfg s < thisPeriod cfg u s then 0 else s.num_mints + 1,
       num_skips := if lastPeriodOf cfg s < thisPeriod cfg u s then 0 else s.num_skips,
       mint := s.fund_shares * (sharesScalar cfg rate u s - 1) },
     { wait := waitTime cfg u,
       clock := tickClock cfg u s,
       this_period := thisPeriod cfg u s,
       snapped := decide (lastPeriodOf cfg s < thisPeriod cfg u s),
       new_period := decide (lastPeriodOf cfg s < thisPeriod cfg u s),
       bootstrap := false,
       time_delta := timeDelta cfg u s,
       skipped := false,
       usd_per_day := usdPerDay cfg u s,
       mint := s.fund_shares * (sharesScalar cfg rate u s - 1),
       growth := sharesScalar cfg rate u s,
       summary_num_mints := s.num_mints + 1,
       summary_num_skips := s.num_skips,
       display_time := tickClock cfg u s }) := by
  unfold step
  rw [if_neg h1, if_neg h2]

-- How `last_timestamp` and its period index move across one step.

theorem step_last_snap {cfg : Config} (rate : ℚ) {u : ℚ} {s : SimState}
    (hlt : lastPeriodOf cfg s < thisPeriod cfg u s) :
    (step cfg rate u s).1.last_timestamp = tickClock cfg u s := by
  unfold step
  split
  · rfl
  · split
    · simp only [if_pos hlt]
    · rfl

theorem step_committed_facts (cfg : Config) (rate u : ℚ) (s : SimState)
    (hb : (step cfg rate u s).2.bootstrap = false)
    (hsk : (step cfg rate u s).2.skipped = false) :
    (step cfg rate u s).1.last_timestamp = tickClock cfg u s ∧
      (step cfg rate u s).2.growth = sharesScalar cfg rate u s ∧
      (step cfg rate u s).1.tx_fees = s.tx_fees + this_tx_fee := by
  by_cases h1 : s.last_timestamp = 0
  · rw [step_boot_eq cfg rate u s h1] at hb
    exact absurd hb (by simp)
  · by_cases h2 : cfg.fee_tolerance < usdPerDay cfg u s
    · rw [step_skip_eq cfg rate u s h1 h2] at hsk
      exact absurd hsk (by simp)
    · rw [step_commit_eq cfg rate u s h1 h2]
      exact ⟨rfl, rfl, rfl⟩

theorem lastPeriodOf_step_snap {cfg : Config} (hv : cfg.valid) (rate : ℚ) {u : ℚ}
    {s : SimState} (hs : LoopInv cfg s)
    (hlt : lastPeriodOf cfg s < thisPeriod cfg u s) :
    lastPeriodOf cfg (step cfg rate u s).1 = thisPeriod cfg u s := by
  have hP := mgmt_fee_period_pos hv
  have h0 : 0 ≤ thisPeriod cfg u s := le_of_lt (lt_of_le_of_lt (lastPeriodOf_nonneg hv hs) hlt)
  have hc : tickClock cfg u s = (thisPeriod cfg u s : ℚ) * mgmt_fee_period cfg := by
    unfold tickClock
    rw [if_pos hlt]
  have hl := step_last_snap rate hlt
  unfold lastPeriodOf
  rw [hl, hc]
  exact pyInt_intCast_mul_div hP h0

theorem lastPeriodOf_step_nonsnap {cfg : Config} (hv : cfg.valid) (rate : ℚ) {u : ℚ}
    (hu : 0 ≤ u) {s : SimState} (hs : LoopInv cfg s)
    (hlt : ¬ lastPeriodOf cfg s < thisPeriod cfg u s) :
    lastPeriodOf cfg (step cfg rate u s).1 = lastPeriodOf cfg s := by
  have hP := mgmt_fee_period_pos hv
  have hcp : tickClock cfg u s = proposedTimestamp cfg u s := by
    unfold tickClock
    rw [if_neg hlt]
  have hpl : s.last_timestamp ≤ proposedTimestamp cfg u s := by
    have h := tickClock_ge_last hv hu hs
    rw [hcp] at h
    exact h
  have heq : thisPeriod cfg u s = lastPeriodOf cfg s := by
    refine le_antisymm (not_lt.mp hlt) ?_
    unfold thisPeriod lastPeriodOf
    exact pyInt_div_mono hs.1 hpl hP
  by_cases h1 : s.last_timestamp = 0
  · rw [step_boot_eq cfg rate u s h1]
    show pyInt (tickClock cfg u s / mgmt_fee_period cfg) = lastPeriodOf cfg s
    rw [hcp]
    exact heq
  · by_cases h2 : cfg.fee_tolerance < usdPerDay cfg u s
    · rw [step_skip_eq cfg rate u s h1 h2]
      show pyInt ((if lastPeriodOf cfg s < thisPeriod cfg u s then tickClock cfg u s
        else s.last_timestamp) / mgmt_fee_period cfg) = lastPeriodOf cfg s
      rw [if_neg hlt]
      rfl
    · rw [step_commit_eq cfg rate u s h1 h2]
      show pyInt (tickClock cfg u s / mgmt_fee_period cfg) = lastPeriodOf cfg s
      rw [hcp]
      exact heq

-- Telescoping of growth factors over committed, non-bootstrap segments.

theorem telescope (cfg : Config) {rate : ℚ} (hrate : 0 < rate) :
    ∀ (us : List ℚ) (s : SimState),
      mgmt_fee_period cfg ≠ 0 →
      (∀ r ∈ runTrace cfg rate s us, r.bootstrap = false ∧ r.skipped = false) →
      ((runTrace cfg rate s us).map TickRecord.growth).prod
        = (rate : ℝ) ^
          (((((runState cfg rate s us).last_timestamp - s.last_timestamp) * (1 + cfg.clock_drift)
              / mgmt_fee_period cfg : ℚ)) : ℝ) := by
  intro us
  induction us with
  | nil =>
    intro s _ _
    simp [runTrace, runState, Real.rpow_zero]
  | cons u us ih =>
    intro s hP htr
    have hPr : ((mgmt_fee_period cfg : ℚ) : ℝ) ≠ 0 := by exact_mod_cast hP
    have hr0 := htr (step cfg rate u s).2 (by simp [runTrace])
    obtain ⟨hlast, hgrow, -⟩ := step_committed_facts cfg rate u s hr0.1 hr0.2
    have htail : ∀ r ∈ runTrace cfg rate (step cfg rate u s).1 us,
        r.bootstrap = false ∧ r.skipped = false := by
      intro r hrr
      exact htr r (by simp [runTrace, hrr])
    have ihe := ih (step cfg rate u s).1 hP htail
    simp only [runTrace, List.map_cons, List.prod_cons, runState]
    rw [ihe, hgrow]
    unfold sharesScalar periodSlice timeDelta
    rw [hlast]
    rw [← Real.rpow_add (by exact_mod_cast hrate : (0:ℝ) < (rate:ℝ))]
    congr 1
    push_cast
    field_simp
    ring

-- The period indices of snapped ticks strictly increase along a run.

theorem snap_chain (cfg : Config) (rate : ℚ) (hv : cfg.valid) :
    ∀ (us : List ℚ) (s : SimState), LoopInv cfg s → (∀ u ∈ us, 0 ≤ u) →
      List.Chain (· < ·) (lastPeriodOf cfg s)
        ((runTrace cfg rate s us).filterMap
          (fun r => if r.snapped = true then some r.this_period else none)) := by
  intro us
  induction us with
  | nil =>
    intro s _ _
    simp [runTrace]
  | cons u us ih =>
    intro s hs hus
    have hu : 0 ≤ u := hus u (by simp)
    have hus' : ∀ x ∈ us, 0 ≤ x := fun x hx => hus x (by simp [hx])
    have hInv' := stepInv hv rate hu hs
    by_cases hlt : lastPeriodOf cfg s < thisPeriod cfg u s
    · have hfa : (if (step cfg rate u s).2.snapped = true
          then some (step cfg rate u s).2.this_period else none)
          = some (thisPeriod cfg u s) := by
        rw [step_snapped, step_this_period, if_pos (by simpa using hlt)]
      simp only [runTrace, List.filterMap_cons, hfa]
      rw [List.chain_cons]
      refine ⟨hlt, ?_⟩
      have hlp := lastPeriodOf_step_snap hv rate hs hlt
      rw [← hlp]
      exact ih _ hInv' hus'
    · have hfa : (if (step cfg rate u s).2.snapped = true
          then some (step cfg rate u s).2.this_period else none) = none := by
        rw [step_snapped, if_neg (by simpa using hlt)]
      simp only [runTrace, List.filterMap_cons, hfa]
      have hlp := lastPeriodOf_step_nonsnap hv rate hu hs hlt
      rw [← hlp]
      exact ih _ hInv' hus'

-- Snapped ticks land exactly on integer multiples of the fee period.

theorem snap_clock_exact (cfg : Config) (rate : ℚ) :
    ∀ (us : List ℚ) (s : SimState), ∀ r ∈ runTrace cfg rate s us,
      r.snapped = true → r.clock = (r.this_period : ℚ) * mgmt_fee_period cfg := by
  intro us
  induction us with
  | nil =>
    intro s r hr
    simp [runTrace] at hr
  | cons u us ih =>
    intro s r hr hsnap
    simp only [runTrace, List.mem_cons] at hr
    rcases hr with hr | hr
    · subst hr
      rw [step_snapped] at hsnap
      have hlt : lastPeriodOf cfg s < thisPeriod cfg u s := by simpa using hsnap
      rw [step_clock, step_this_period]
      unfold tickClock
      rw [if_pos hlt]
    · exact ih _ r hr hsnap

-- The tick clock never decreases along a run.

theorem clock_chain (cfg : Config) (rate : ℚ) (hv : cfg.valid) :
    ∀ (us : List ℚ) (s : SimState), LoopInv cfg s → (∀ u ∈ us, 0 ≤ u) →
      List.Chain (· ≤ ·) s.this_timestamp ((runTrace cfg rate s us).map TickRecord.clock) := by
  intro us
  induction us with
  | nil =>
    intro s _ _
    simp [runTrace]
  | cons u us ih =>
    intro s hs hus
    have hu : 0 ≤ u := hus u (by simp)
    have hus' : ∀ x ∈ us, 0 ≤ x := fun x hx => hus x (by simp [hx])
    simp only [runTrace, List.map_cons]
    rw [List.chain_cons]
    constructor
    · rw [step_clock]
      exact tickClock_ge_this hv hu hs
    · have h1 := ih (step cfg rate u s).1 (stepInv hv rate hu hs) hus'
      rw [step_this] at h1
      rw [step_clock]
      exact h1

-- Share and fee monotonicity for drift at least -1.

theorem sharesScalar_ge_one {cfg : Config} (hv : cfg.valid) {rate : ℚ} (h1 : 1 ≤ rate)
    (hd : -1 ≤ cfg.clock_drift) {u : ℚ} (hu : 0 ≤ u) {s : SimState} (hs : LoopInv cfg s) :
    1 ≤ sharesScalar cfg rate u s := by
  have hP := mgmt_fee_period_pos hv
  have hdelta : 0 ≤ timeDelta cfg u s := by
    unfold timeDelta
    have h2 := tickClock_ge_last hv hu hs
    exact mul_nonneg (by linarith) (by linarith)
  have hslice : 0 ≤ periodSlice cfg u s := div_nonneg hdelta hP.le
  unfold sharesScalar
  have h1r : (1:ℝ) ≤ (rate : ℝ) := by exact_mod_cast h1
  have hsr : (0:ℝ) ≤ ((periodSlice cfg u s : ℚ) : ℝ) := by exact_mod_cast hslice
  calc (1:ℝ) = (rate:ℝ) ^ (0:ℝ) := (Real.rpow_zero _).symm
    _ ≤ _ := Real.rpow_le_rpow_of_exponent_le h1r hsr

theorem init_shares_cast : ((init_shares : ℚ) : ℝ) = 1000 := by
  norm_num [init_shares]

theorem this_tx_fee_eq : this_tx_fee = 9 / 2000 := by
  norm_num [this_tx_fee, stroop_per_xlm, xlm_price, stroop_per_tx]

theorem step_mono {cfg : Config} (hv : cfg.valid) {rate : ℚ} (h1 : 1 ≤ rate)
    (hd : -1 ≤ cfg.clock_drift) {u : ℚ} (hu : 0 ≤ u) {s : SimState}
    (hs : LoopInv cfg s) (hm : MonSt s) :
    s.fund_shares ≤ (step cfg rate u s).1.fund_shares ∧
      s.tx_fees ≤ (step cfg rate u s).1.tx_fees ∧ MonSt (step cfg rate u s).1 := by
  have hfs0 : (0:ℝ) < s.fund_shares := by
    have := hm.1
    rw [init_shares_cast] at this
    linarith
  by_cases hb : s.last_timestamp = 0
  · rw [step_boot_eq cfg rate u s hb]
    have hm0 : s.mint = 0 := hm.2 hb
    refine ⟨by rw [hm0]; simp, le_rfl, ?_, fun _ => hm0⟩
    show ((init_shares : ℚ) : ℝ) ≤ s.fund_shares + s.mint
    rw [hm0, add_zero]
    exact hm.1
  · by_cases ht : cfg.fee_tolerance < usdPerDay cfg u s
    · rw [step_skip_eq cfg rate u s hb ht]
      refine ⟨by simp, le_rfl, ?_, fun _ => rfl⟩
      show ((init_shares : ℚ) : ℝ) ≤ s.fund_shares + 0
      rw [add_zero]
      exact hm.1
    · rw [step_commit_eq cfg rate u s hb ht]
      have hsc := sharesScalar_ge_one hv h1 hd hu hs
      have hmint : (0:ℝ) ≤ s.fund_shares * (sharesScalar cfg rate u s - 1) :=
        mul_nonneg hfs0.le (by linarith)
      have hfee : (0:ℚ) ≤ this_tx_fee := by rw [this_tx_fee_eq]; norm_num
      refine ⟨by linarith, by linarith, ?_, ?_⟩
      · show ((init_shares : ℚ) : ℝ) ≤
          s.fund_shares + s.fund_shares * (sharesScalar cfg rate u s - 1)
        have := hm.1
        linarith
      · intro hzero
        have hlast0 : 0 < s.last_timestamp := lt_of_le_of_ne hs.1 (Ne.symm hb)
        have hcl := tickClock_ge_last hv hu hs
        exact absurd hzero (by show tickClock cfg u s ≠ 0; intro h0; rw [h0] at hcl; linarith)

theorem runStates_head (cfg : Config) (rate : ℚ) (s : SimState) (us : List ℚ) :
    ∃ l, runStates cfg rate s us = s :: l := by
  cases us <;> exact ⟨_, rfl⟩

theorem mono_chain (cfg : Config) {rate : ℚ} (hv : cfg.valid) (h1 : 1 ≤ rate)
    (hd : -1 ≤ cfg.clock_drift) :
    ∀ (us : List ℚ) (s : SimState), LoopInv cfg s → MonSt s → (∀ u ∈ us, 0 ≤ u) →
      List.Chain' (fun a b => a.fund_shares ≤ b.fund_shares ∧ a.tx_fees ≤ b.tx_fees)
          (runStates cfg rate s us) ∧
        ∀ t ∈ runStates cfg rate s us, ((init_shares : ℚ) : ℝ) ≤ t.fund_shares := by
  intro us
  induction us with
  | nil =>
    intro s _ hm _
    refine ⟨by simp [runStates], ?_⟩
    intro t ht
    simp only [runStates, List.mem_singleton] at ht
    rw [ht]
    exact hm.1
  | cons u us ih =>
    intro s hs hm hus
    have hu : 0 ≤ u := hus u (by simp)
    have hus' : ∀ x ∈ us, 0 ≤ x := fun x hx => hus x (by simp [hx])
    obtain ⟨hf, htx, hm'⟩ := step_mono hv h1 hd hu hs hm
    have hInv' := stepInv hv rate hu hs
    obtain ⟨ihc, ihm⟩ := ih (step cfg rate u s).1 hInv' hm' hus'
    obtain ⟨l, hl⟩ := runStates_head cfg rate (step cfg rate u s).1 us
    constructor
    · simp only [runStates]
      rw [hl, List.chain'_cons]
      rw [hl] at ihc
      exact ⟨⟨hf, htx⟩, ihc⟩
    · intro t ht
      simp only [runStates, List.mem_cons] at ht
      rcases ht with ht | ht
      · rw [ht]
        exact hm.1
      · exact ihm t ht

-- Concrete evaluation, scenario A: cfg0 with draw 1/2 twice from the
-- initial state.  Tick 1 is the bootstrap at clock 50000; tick 2 crosses
-- the day boundary and snaps to 86400, committing.

theorem P_cfg0 : mgmt_fee_period cfg0 = 86400 := by
  norm_num [mgmt_fee_period, cfg0]

theorem wA1 : waitTime cfg0 (1/2) = 50000 := by
  norm_num [waitTime, cfg0]

theorem tpA1 : thisPeriod cfg0 (1/2) initState = 0 := by
  unfold thisPeriod
  apply pyInt_eq_of <;>
    norm_num [proposedTimestamp, waitTime, initState, mgmt_fee_period, cfg0]

theorem lpA1 : lastPeriodOf cfg0 initState = 0 := by
  unfold lastPeriodOf
  apply pyInt_eq_of <;> norm_num [initState, mgmt_fee_period, cfg0]

theorem tcA1 : tickClock cfg0 (1/2) initState = 50000 := by
  unfold tickClock
  rw [lpA1, tpA1, if_neg (by norm_num)]
  norm_num [proposedTimestamp, waitTime, initState, cfg0]

theorem sA1_last : (step cfg0 2 (1/2) initState).1.last_timestamp = 50000 := by
  rw [step_boot_eq cfg0 2 (1/2) initState rfl]
  exact tcA1

theorem sA1_this : (step cfg0 2 (1/2) initState).1.this_timestamp = 50000 := by
  rw [step_this]
  exact tcA1

theorem sA1_tx : (step cfg0 2 (1/2) initState).1.tx_fees = 0 := by
  rw [step_boot_eq cfg0 2 (1/2) initState rfl]
  rfl

theorem recA1_skipped : (step cfg0 2 (1/2) initState).2.skipped = false := by
  rw [step_boot_eq cfg0 2 (1/2) initState rfl]

theorem recA1_growth : (step cfg0 2 (1/2) initState).2.growth = 1 := by
  rw [step_boot_eq cfg0 2 (1/2) initState rfl]

theorem recA1_bootstrap : (step cfg0 2 (1/2) initState).2.bootstrap = true := by
  rw [step_boot_eq cfg0 2 (1/2) initState rfl]

theorem sA1_last_ne : ¬ (step cfg0 2 (1/2) initState).1.last_timestamp = 0 := by
  rw [sA1_last]
  norm_num

theorem tpA2 : thisPeriod cfg0 (1/2) (step cfg0 2 (1/2) initState).1 = 1 := by
  unfold thisPeriod proposedTimestamp
  rw [sA1_this, wA1]
  apply pyInt_eq_of <;> norm_num [mgmt_fee_period, cfg0]

theorem lpA2 : lastPeriodOf cfg0 (step cfg0 2 (1/2) initState).1 = 0 := by
  unfold lastPeriodOf
  rw [sA1_last]
  apply pyInt_eq_of <;> norm_num [mgmt_fee_period, cfg0]

theorem tcA2 : tickClock cfg0 (1/2) (step cfg0 2 (1/2) initState).1 = 86400 := by
  unfold tickClock
  rw [lpA2, tpA2, if_pos (by norm_num), P_cfg0]
  norm_num

theorem usdA2 : usdPerDay cfg0 (1/2) (step cfg0 2 (1/2) initState).1 = 9/2000 := by
  unfold usdPerDay simDays
  rw [tcA2, sA1_tx, this_tx_fee_eq]
  norm_num

theorem notthrA2 :
    ¬ cfg0.fee_tolerance < usdPerDay cfg0 (1/2) (step cfg0 2 (1/2) initState).1 := by
  rw [usdA2]
  norm_num [cfg0]

theorem tdA2 : timeDelta cfg0 (1/2) (step cfg0 2 (1/2) initState).1 = 36400 := by
  unfold timeDelta
  rw [tcA2, sA1_last]
  norm_num [cfg0]

theorem psA2 : periodSlice cfg0 (1/2) (step cfg0 2 (1/2) initState).1 = 91/216 := by
  unfold periodSlice
  rw [tdA2, P_cfg0]
  norm_num

theorem recA2_growth :
    (step cfg0 2 (1/2) (step cfg0 2 (1/2) initState).1).2.growth
      = (2:ℝ) ^ (((91/216 : ℚ)) : ℝ) := by
  rw [step_commit_eq cfg0 2 (1/2) _ sA1_last_ne notthrA2]
  show sharesScalar cfg0 2 (1/2) (step cfg0 2 (1/2) initState).1 = _
  unfold sharesScalar
  rw [psA2]
  norm_num

theorem recA2_skipped :
    (step cfg0 2 (1/2) (step cfg0 2 (1/2) initState).1).2.skipped = false := by
  rw [step_commit_eq cfg0 2 (1/2) _ sA1_last_ne notthrA2]

theorem recA2_bootstrap :
    (step cfg0 2 (1/2) (step cfg0 2 (1/2) initState).1).2.bootstrap = false := by
  rw [step_commit_eq cfg0 2 (1/2) _ sA1_last_ne notthrA2]

theorem sA2_last :
    (step cfg0 2 (1/2) (step cfg0 2 (1/2) initState).1).1.last_timestamp = 86400 := by
  rw [step_commit_eq cfg0 2 (1/2) _ sA1_last_ne notthrA2]
  exact tcA2

/-- Claim C2, counterexample.  In the run of `cfg0` with draws 1/2, 1/2
there is no skipped tick and zero drift; the run covers the whole first
fee period, whose boundary tick commits at exactly one fee period
(86400 s); yet the product of the growth factors of the ticks of the
first period is strictly below the inflation rate 2, because the first
period starts at the bootstrap clock 50000, not at time 0. -/
theorem C2_first_period_counterexample :
    inflation_rate cfg0.mgmt_fee = some 2 ∧
    cfg0.clock_drift = 0 ∧
    (runTrace cfg0 2 initState [1/2, 1/2]).map TickRecord.skipped = [false, false] ∧
    (runState cfg0 2 initState [1/2, 1/2]).last_timestamp = mgmt_fee_period cfg0 ∧
    ((runTrace cfg0 2 initState [1/2, 1/2]).map TickRecord.growth).prod < 2 := by
  refine ⟨?_, rfl, ?_, ?_, ?_⟩
  · show inflation_rate (1/2) = some 2
    unfold inflation_rate
    rw [if_neg (by norm_num)]
    norm_num
  · simp only [runTrace, List.map_cons, List.map_nil]
    rw [recA1_skipped, recA2_skipped]
  · simp only [runState]
    rw [sA2_last, P_cfg0]
  · simp only [runTrace, List.map_cons, List.map_nil, List.prod_cons, List.prod_nil]
    rw [recA1_growth, recA2_growth]
    have hx : (((91/216 : ℚ)) : ℝ) < 1 := by
      push_cast
      norm_num
    calc (1:ℝ) * ((2:ℝ) ^ (((91/216 : ℚ)) : ℝ) * 1)
        = (2:ℝ) ^ (((91/216 : ℚ)) : ℝ) := by ring
      _ < (2:ℝ) ^ (1:ℝ) := Real.rpow_lt_rpow_of_exponent_lt (by norm_num) hx
      _ = 2 := Real.rpow_one 2

-- Concrete evaluation, scenario T: cfgT (zero tolerance) with draw 1/2
-- twice.  Tick 1 is the bootstrap; tick 2 snaps to the day boundary but
-- exceeds the zero fee tolerance, so the boundary tick is throttled.

theorem P_cfgT : mgmt_fee_period cfgT = 86400 := by
  norm_num [mgmt_fee_period, cfgT]

theorem wT1 : waitTime cfgT (1/2) = 50000 := by
  norm_num [waitTime, cfgT]

theorem tpT1 : thisPeriod cfgT (1/2) initState = 0 := by
  unfold thisPeriod
  apply pyInt_eq_of <;>
    norm_num [proposedTimestamp, waitTime, initState, mgmt_fee_period, cfgT]

theorem lpT1 : lastPeriodOf cfgT initState = 0 := by
  unfold lastPeriodOf
  apply pyInt_eq_of <;> norm_num [initState, mgmt_fee_period, cfgT]

theorem tcT1 : tickClock cfgT (1/2) initState = 50000 := by
  unfold tickClock
  rw [lpT1, tpT1, if_neg (by norm_num)]
  norm_num [proposedTimestamp, waitTime, initState, cfgT]

theorem sT1_last : (step cfgT 2 (1/2) initState).1.last_timestamp = 50000 := by
  rw [step_boot_eq cfgT 2 (1/2) initState rfl]
  exact tcT1

theorem sT1_this : (step cfgT 2 (1/2) initState).1.this_timestamp = 50000 := by
  rw [step_this]
  exact tcT1

theorem sT1_tx : (step cfgT 2 (1/2) initState).1.tx_fees = 0 := by
  rw [step_boot_eq cfgT 2 (1/2) initState rfl]
  rfl

theorem sT1_nm : (step cfgT 2 (1/2) initState).1.num_mints = 0 := by
  rw [step_boot_eq cfgT 2 (1/2) initState rfl]

theorem sT1_ns : (step cfgT 2 (1/2) initState).1.num_skips = 0 := by
  rw [step_boot_eq cfgT 2 (1/2) initState rfl]

theorem recT1_new_period : (step cfgT 2 (1/2) initState).2.new_period = true := by
  rw [step_boot_eq cfgT 2 (1/2) initState rfl]

theorem recT1_skipped : (step cfgT 2 (1/2) initState).2.skipped = false := by
  rw [step_boot_eq cfgT 2 (1/2) initState rfl]

theorem sT1_last_ne : ¬ (step cfgT 2 (1/2) initState).1.last_timestamp = 0 := by
  rw [sT1_last]
  norm_num

theorem tpT2 : thisPeriod cfgT (1/2) (step cfgT 2 (1/2) initState).1 = 1 := by
  unfold thisPeriod proposedTimestamp
  rw [sT1_this, wT1]
  apply pyInt_eq_of <;> norm_num [mgmt_fee_period, cfgT]

theorem lpT2 : lastPeriodOf cfgT (step cfgT 2 (1/2) initState).1 = 0 := by
  unfold lastPeriodOf
  rw [sT1_last]
  apply pyInt_eq_of <;> norm_num [mgmt_fee_period, cfgT]

theorem tcT2 : tickClock cfgT (1/2) (step cfgT 2 (1/2) initState).1 = 86400 := by
  unfold tickClock
  rw [lpT2, tpT2, if_pos (by norm_num), P_cfgT]
  norm_num

theorem usdT2 : usdPerDay cfgT (1/2) (step cfgT 2 (1/2) initState).1 = 9/2000 := by
  unfold usdPerDay simDays
  rw [tcT2, sT1_tx, this_tx_fee_eq]
  norm_num

theorem thrT2 :
    cfgT.fee_tolerance < usdPerDay cfgT (1/2) (step cfgT 2 (1/2) initState).1 := by
  rw [usdT2]
  norm_num [cfgT]

theorem recT2_new_period :
    (step cfgT 2 (1/2) (step cfgT 2 (1/2) initState).1).2.new_period = true := by
  rw [step_skip_eq cfgT 2 (1/2) _ sT1_last_ne thrT2]
  show decide (lastPeriodOf cfgT (step cfgT 2 (1/2) initState).1
    < thisPeriod cfgT (1/2) (step cfgT 2 (1/2) initState).1) = true
  rw [lpT2, tpT2]
  decide

theorem recT2_skipped :
    (step cfgT 2 (1/2) (step cfgT 2 (1/2) initState).1).2.skipped = true := by
  rw [step_skip_eq cfgT 2 (1/2) _ sT1_last_ne thrT2]

theorem recT2_snm :
    (step cfgT 2 (1/2) (step cfgT 2 (1/2) initState).1).2.summary_num_mints = 0 := by
  rw [step_skip_eq cfgT 2 (1/2) _ sT1_last_ne thrT2]
  show (step cfgT 2 (1/2) initState).1.num_mints = 0
  exact sT1_nm

theorem recT2_sns :
    (step cfgT 2 (1/2) (step cfgT 2 (1/2) initState).1).2.summary_num_skips = 1 := by
  rw [step_skip_eq cfgT 2 (1/2) _ sT1_last_ne thrT2]
  show (step cfgT 2 (1/2) initState).1.num_skips + 1 = 1
  rw [sT1_ns]

theorem recT2_usd :
    (step cfgT 2 (1/2) (step cfgT 2 (1/2) initState).1).2.usd_per_day = 9/2000 := by
  rw [step_skip_eq cfgT 2 (1/2) _ sT1_last_ne thrT2]
  exact usdT2

theorem sT2_tx :
    (step cfgT 2 (1/2) (step cfgT 2 (1/2) initState).1).1.tx_fees = 0 := by
  rw [step_skip_eq cfgT 2 (1/2) _ sT1_last_ne thrT2]
  exact sT1_tx

theorem sT2_last :
    (step cfgT 2 (1/2) (step cfgT 2 (1/2) initState).1).1.last_timestamp = 86400 := by
  rw [step_skip_eq cfgT 2 (1/2) _ sT1_last_ne thrT2]
  show (if lastPeriodOf cfgT (step cfgT 2 (1/2) initState).1
      < thisPeriod cfgT (1/2) (step cfgT 2 (1/2) initState).1
    then tickClock cfgT (1/2) (step cfgT 2 (1/2) initState).1
    else (step cfgT 2 (1/2) initState).1.last_timestamp) = 86400
  rw [lpT2, tpT2, if_pos (by norm_num)]
  exact tcT2

-- Concrete evaluation, scenario D: cfgD (clock drift -2) with draw 1/2
-- twice.  Tick 2 commits at the day boundary with a negative time delta,
-- so the committed mint is negative.

theorem P_cfgD : mgmt_fee_period cfgD = 86400 := by
  norm_num [mgmt_fee_period, cfgD]

theorem wD1 : waitTime cfgD (1/2) = 50000 := by
  norm_num [waitTime, cfgD]

theorem tpD1 : thisPeriod cfgD (1/2) initState = 0 := by
  unfold thisPeriod
  apply pyInt_eq_of <;>
    norm_num [proposedTimestamp, waitTime, initState, mgmt_fee_period, cfgD]

theorem lpD1 : lastPeriodOf cfgD initState = 0 := by
  unfold lastPeriodOf
  apply pyInt_eq_of <;> norm_num [initState, mgmt_fee_period, cfgD]

theorem tcD1 : tickClock cfgD (1/2) initState = 50000 := by
  unfold tickClock
  rw [lpD1, tpD1, if_neg (by norm_num)]
  norm_num [proposedTimestamp, waitTime, initState, cfgD]

theorem sD1_last : (step cfgD 2 (1/2) initState).1.last_timestamp = 50000 := by
  rw [step_boot_eq cfgD 2 (1/2) initState rfl]
  exact tcD1

theorem sD1_this : (step cfgD 2 (1/2) initState).1.this_timestamp = 50000 := by
  rw [step_this]
  exact tcD1

theorem sD1_tx : (step cfgD 2 (1/2) initState).1.tx_fees = 0 := by
  rw [step_boot_eq cfgD 2 (1/2) initState rfl]
  rfl

theorem sD1_fs : (step cfgD 2 (1/2) initState).1.fund_shares = ((init_shares : ℚ) : ℝ) := by
  rw [step_boot_eq cfgD 2 (1/2) initState rfl]
  show ((init_shares : ℚ) : ℝ) + 0 = ((init_shares : ℚ) : ℝ)
  rw [add_zero]

theorem sD1_last_ne : ¬ (step cfgD 2 (1/2) initState).1.last_timestamp = 0 := by
  rw [sD1_last]
  norm_num

theorem tpD2 : thisPeriod cfgD (1/2) (step cfgD 2 (1/2) initState).1 = 1 := by
  unfold thisPeriod proposedTimestamp
  rw [sD1_this, wD1]
  apply pyInt_eq_of <;> norm_num [mgmt_fee_period, cfgD]

theorem lpD2 : lastPeriodOf cfgD (step cfgD 2 (1/2) initState).1 = 0 := by
  unfold lastPeriodOf
  rw [sD1_last]
  apply pyInt_eq_of <;> norm_num [mgmt_fee_period, cfgD]

theorem tcD2 : tickClock cfgD (1/2) (step cfgD 2 (1/2) initState).1 = 86400 := by
  unfold tickClock
  rw [lpD2, tpD2, if_pos (by norm_num), P_cfgD]
  norm_num

theorem usdD2 : usdPerDay cfgD (1/2) (step cfgD 2 (1/2) initState).1 = 9/2000 := by
  unfold usdPerDay simDays
  rw [tcD2, sD1_tx, this_tx_fee_eq]
  norm_num

theorem notthrD2 :
    ¬ cfgD.fee_tolerance < usdPerDay cfgD (1/2) (step cfgD 2 (1/2) initState).1 := by
  rw [usdD2]
  norm_num [cfgD]

theorem tdD2 : timeDelta cfgD (1/2) (step cfgD 2 (1/2) initState).1 = -36400 := by
  unfold timeDelta
  rw [tcD2, sD1_last]
  norm_num [cfgD]

theorem psD2 : periodSlice cfgD (1/2) (step cfgD 2 (1/2) initState).1 = -(91/216) := by
  unfold periodSlice
  rw [tdD2, P_cfgD]
  norm_num

theorem scD2 : sharesScalar cfgD 2 (1/2) (step cfgD 2 (1/2) initState).1
    = (2:ℝ) ^ (((-(91/216) : ℚ)) : ℝ) := by
  unfold sharesScalar
  rw [psD2]
  norm_num

theorem sD2_fs :
    (step cfgD 2 (1/2) (step cfgD 2 (1/2) initState).1).1.fund_shares
      = ((init_shares : ℚ) : ℝ)
        + ((init_shares : ℚ) : ℝ) * ((2:ℝ) ^ (((-(91/216) : ℚ)) : ℝ) - 1) := by
  rw [step_commit_eq cfgD 2 (1/2) _ sD1_last_ne notthrD2]
  show (step cfgD 2 (1/2) initState).1.fund_shares
      + (step cfgD 2 (1/2) initState).1.fund_shares
        * (sharesScalar cfgD 2 (1/2) (step cfgD 2 (1/2) initState).1 - 1) = _
  rw [sD1_fs, scD2]

-- Concrete evaluation, scenario 6: cfg6 (mint interval 200000 s) with a
-- single draw 1/2.  The bootstrap tick itself crosses two day boundaries
-- and snaps to 172800, so the boundary at 86400 gets no tick at all.

theorem P_cfg6 : mgmt_fee_period cfg6 = 86400 := by
  norm_num [mgmt_fee_period, cfg6]

theorem w61 : waitTime cfg6 (1/2) = 200000 := by
  norm_num [waitTime, cfg6]

theorem tp61 : thisPeriod cfg6 (1/2) initState = 2 := by
  unfold thisPeriod
  apply pyInt_eq_of <;>
    norm_num [proposedTimestamp, waitTime, initState, mgmt_fee_period, cfg6]

theorem lp61 : lastPeriodOf cfg6 initState = 0 := by
  unfold lastPeriodOf
  apply pyInt_eq_of <;> norm_num [initState, mgmt_fee_period, cfg6]

theorem tc61 : tickClock cfg6 (1/2) initState = 172800 := by
  unfold tickClock
  rw [lp61, tp61, if_pos (by norm_num), P_cfg6]
  norm_num

theorem rec61_new_period : (step cfg6 2 (1/2) initState).2.new_period = true := by
  rw [step_boot_eq cfg6 2 (1/2) initState rfl]

theorem rec61_clock : (step cfg6 2 (1/2) initState).2.clock = 172800 := by
  rw [step_clock]
  exact tc61

-- Concrete evaluation, scenario N: cfgN (noise equal to mint) with the
-- draw u = 0, so the first wait is exactly zero and the bootstrap tick
-- happens at clock 0.

theorem wN1 : waitTime cfgN 0 = 0 := by
  norm_num [waitTime, cfgN]

theorem tpN1 : thisPeriod cfgN 0 initState = 0 := by
  unfold thisPeriod
  apply pyInt_eq_of <;>
    norm_num [proposedTimestamp, waitTime, initState, mgmt_fee_period, cfgN]

theorem lpN1 : lastPeriodOf cfgN initState = 0 := by
  unfold lastPeriodOf
  apply pyInt_eq_of <;> norm_num [initState, mgmt_fee_period, cfgN]

theorem tcN1 : tickClock cfgN 0 initState = 0 := by
  unfold tickClock
  rw [lpN1, tpN1, if_neg (by norm_num)]
  norm_num [proposedTimestamp, waitTime, initState, cfgN]

theorem recN1_clock : (step cfgN 2 0 initState).2.clock = 0 := by
  rw [step_clock]
  exact tcN1

theorem recN1_bootstrap : (step cfgN 2 0 initState).2.bootstrap = true := by
  rw [step_boot_eq cfgN 2 0 initState rfl]

theorem sN1_last : (step cfgN 2 0 initState).1.last_timestamp = 0 := by
  rw [step_boot_eq cfgN 2 0 initState rfl]
  exact tcN1

-- Concrete evaluation, scenario B: cfg0 with draws 1/2, 1/2 from the
-- boundary state sB0.  Tick 1 commits inside period 2 at clock 136400;
-- tick 2 snaps to the period boundary 172800 and commits.

theorem tpB1 : thisPeriod cfg0 (1/2) sB0 = 1 := by
  unfold thisPeriod
  apply pyInt_eq_of <;>
    norm_num [proposedTimestamp, waitTime, sB0, mgmt_fee_period, cfg0]

theorem lpB1 : lastPeriodOf cfg0 sB0 = 1 := by
  unfold lastPeriodOf
  apply pyInt_eq_of <;> norm_num [sB0, mgmt_fee_period, cfg0]

theorem tcB1 : tickClock cfg0 (1/2) sB0 = 136400 := by
  unfold tickClock
  rw [lpB1, tpB1, if_neg (by norm_num)]
  norm_num [proposedTimestamp, waitTime, sB0, cfg0]

theorem usdB1 : usdPerDay cfg0 (1/2) sB0 = 243/42625 := by
  unfold usdPerDay simDays
  rw [tcB1, this_tx_fee_eq]
  norm_num [sB0]

theorem notthrB1 : ¬ cfg0.fee_tolerance < usdPerDay cfg0 (1/2) sB0 := by
  rw [usdB1]
  norm_num [cfg0]

theorem sB0_last_ne : ¬ sB0.last_timestamp = 0 := by
  norm_num [sB0]

theorem sB1_last : (step cfg0 2 (1/2) sB0).1.last_timestamp = 136400 := by
  rw [step_commit_eq cfg0 2 (1/2) sB0 sB0_last_ne notthrB1]
  exact tcB1

theorem sB1_this : (step cfg0 2 (1/2) sB0).1.this_timestamp = 136400 := by
  rw [step_this]
  exact tcB1

theorem sB1_tx : (step cfg0 2 (1/2) sB0).1.tx_fees = 9/1000 := by
  rw [step_commit_eq cfg0 2 (1/2) sB0 sB0_last_ne notthrB1]
  show sB0.tx_fees + this_tx_fee = 9/1000
  rw [this_tx_fee_eq]
  norm_num [sB0]

theorem recB1_bootstrap : (step cfg0 2 (1/2) sB0).2.bootstrap = false := by
  rw [step_commit_eq cfg0 2 (1/2) sB0 sB0_last_ne notthrB1]

theorem recB1_skipped : (step cfg0 2 (1/2) sB0).2.skipped = false := by
  rw [step_commit_eq cfg0 2 (1/2) sB0 sB0_last_ne notthrB1]

theorem sB1_last_ne : ¬ (step cfg0 2 (1/2) sB0).1.last_timestamp = 0 := by
  rw [sB1_last]
  norm_num

theorem tpB2 : thisPeriod cfg0 (1/2) (step cfg0 2 (1/2) sB0).1 = 2 := by
  unfold thisPeriod proposedTimestamp
  rw [sB1_this, wA1]
  apply pyInt_eq_of <;> norm_num [mgmt_fee_period, cfg0]

theorem lpB2 : lastPeriodOf cfg0 (step cfg0 2 (1/2) sB0).1 = 1 := by
  unfold lastPeriodOf
  rw [sB1_last]
  apply pyInt_eq_of <;> norm_num [mgmt_fee_period, cfg0]

theorem tcB2 : tickClock cfg0 (1/2) (step cfg0 2 (1/2) sB0).1 = 172800 := by
  unfold tickClock
  rw [lpB2, tpB2, if_pos (by norm_num), P_cfg0]
  norm_num

theorem usdB2 : usdPerDay cfg0 (1/2) (step cfg0 2 (1/2) sB0).1 = 27/4000 := by
  unfold usdPerDay simDays
  rw [tcB2, sB1_tx, this_tx_fee_eq]
  norm_num

theorem notthrB2 :
    ¬ cfg0.fee_tolerance < usdPerDay cfg0 (1/2) (step cfg0 2 (1/2) sB0).1 := by
  rw [usdB2]
  norm_num [cfg0]

theorem recB2_bootstrap :
    (step cfg0 2 (1/2) (step cfg0 2 (1/2) sB0).1).2.bootstrap = false := by
  rw [step_commit_eq cfg0 2 (1/2) _ sB1_last_ne notthrB2]

theorem recB2_skipped :
    (step cfg0 2 (1/2) (step cfg0 2 (1/2) sB0).1).2.skipped = false := by
  rw [step_commit_eq cfg0 2 (1/2) _ sB1_last_ne notthrB2]

theorem sB2_last :
    (step cfg0 2 (1/2) (step cfg0 2 (1/2) sB0).1).1.last_timestamp = 172800 := by
  rw [step_commit_eq cfg0 2 (1/2) _ sB1_last_ne notthrB2]
  exact tcB2

-- Shared helpers for the claim theorems.

theorem rate_cfg0_eq : inflation_rate cfg0.mgmt_fee = some 2 := by
  show inflation_rate (1/2) = some 2
  unfold inflation_rate
  rw [if_neg (by norm_num)]
  norm_num

theorem recT1_snm : (step cfgT 2 (1/2) initState).2.summary_num_mints = 0 := by
  rw [step_boot_eq cfgT 2 (1/2) initState rfl]
  rfl

theorem recT1_sns : (step cfgT 2 (1/2) initState).2.summary_num_skips = 0 := by
  rw [step_boot_eq cfgT 2 (1/2) initState rfl]
  rfl

theorem recT2_bootstrap :
    (step cfgT 2 (1/2) (step cfgT 2 (1/2) initState).1).2.bootstrap = false := by
  rw [step_skip_eq cfgT 2 (1/2) _ sT1_last_ne thrT2]

-- Claim theorems.

/-- Claim C3: the spec (and the code's own line-84 error message, which
says the noise "must be less than the mint period") requires noise >=
mint to fail fast; but the line-83 check only rejects noise > mint, so a
configuration with noise = mint = 300 passes the whole startup validation
and the simulation runs, while noise = 301 is rejected. -/
theorem C3_noise_equal_mint_accepted :
    configAccepted (1/50) 365 300 300 = true ∧
      configAccepted (1/50) 365 300 301 = false := by
  constructor <;>
    norm_num [configAccepted, percentageOk, positiveIntOk, noiseCheckOk]

/-- Claim C8: for every accepted configuration (in fact for every
configuration and draw), the very first tick of the run — previous
committed clock 0 — is the bootstrap: it applies a mint of exactly 0,
leaves fund_shares at init_shares, is marked new_period = true, is never
throttled, commits last_committed_clock to its clock, and emits a period
summary whose num_mints is 0. -/
theorem C8_bootstrap_tick (cfg : Config) (rate u : ℚ) :
    (step cfg rate u initState).2.bootstrap = true ∧
    (step cfg rate u initState).2.new_period = true ∧
    (step cfg rate u initState).2.skipped = false ∧
    (step cfg rate u initState).2.mint = 0 ∧
    (step cfg rate u initState).1.fund_shares = ((init_shares : ℚ) : ℝ) ∧
    (step cfg rate u initState).1.last_timestamp = (step cfg rate u initState).2.clock ∧
    (step cfg rate u initState).2.summary_num_mints = 0 := by
  rw [step_boot_eq cfg rate u initState rfl]
  refine ⟨rfl, rfl, rfl, rfl, ?_, rfl, rfl⟩
  show ((init_shares : ℚ) : ℝ) + 0 = ((init_shares : ℚ) : ℝ)
  rw [add_zero]

/-- Claim C9: for every accepted configuration and every run driven by
non-negative draws, the tick clock (after any boundary snap) is
non-decreasing from tick to tick, including across skipped ticks that did
not advance last_committed_clock. -/
theorem C9_clock_monotone (cfg : Config) (rate : ℚ) (us : List ℚ) (hv : cfg.valid)
    (hus : ∀ u ∈ us, 0 ≤ u) :
    List.Chain (· ≤ ·) initState.this_timestamp
      ((runTrace cfg rate initState us).map TickRecord.clock) :=
  clock_chain cfg rate hv us initState (loopInv_init hv) hus

theorem C9_clock_monotone_witness :
    List.Chain (· ≤ ·) initState.this_timestamp
      ((runTrace cfg0 2 initState [1/2, 1/2]).map TickRecord.clock) :=
  C9_clock_monotone cfg0 2 [1/2, 1/2] (by norm_num [Config.valid, cfg0])
    (by intro u hu; fin_cases hu <;> norm_num)

/-- Claim C6, counterexample.  With cfg6 the run of a single draw 1/2
crosses two fee-period boundaries (86400 and 172800) in one wait: the
clock advances from 0 to 172800, yet the only tick of the run is marked
new_period with clock 172800; the crossed boundary at 86400 has no tick
at all, contradicting "exactly one tick per crossed boundary". -/
theorem C6_multi_crossing_counterexample :
    cfg6.valid ∧
    mgmt_fee_period cfg6 = 86400 ∧
    initState.this_timestamp = 0 ∧
    (runTrace cfg6 2 initState [1/2]).map (fun r => (r.new_period, r.clock))
      = [(true, 172800)] := by
  refine ⟨by norm_num [Config.valid, cfg6], P_cfg6, rfl, ?_⟩
  simp only [runTrace, List.map_cons, List.map_nil]
  rw [rec61_new_period, rec61_clock]

/-- Claim C6, amended: every snapped (boundary) tick's clock is the exact
integer multiple this_period * mgmt_fee_period, and the period indices of
snapped ticks strictly increase along the run, so at most one boundary
tick lands in any fee period; a wait that crosses several boundaries,
however, produces a single snapped tick at the last crossed boundary, so
a crossed boundary may get no tick. -/
theorem C6_boundary_snap_amended (cfg : Config) (rate : ℚ) (us : List ℚ)
    (hv : cfg.valid) (hus : ∀ u ∈ us, 0 ≤ u) :
    List.Chain (· < ·) (lastPeriodOf cfg initState)
        ((runTrace cfg rate initState us).filterMap
          (fun r => if r.snapped = true then some r.this_period else none)) ∧
      ∀ r ∈ runTrace cfg rate initState us, r.snapped = true →
        r.clock = (r.this_period : ℚ) * mgmt_fee_period cfg :=
  ⟨snap_chain cfg rate hv us initState (loopInv_init hv) hus,
   snap_clock_exact cfg rate us initState⟩

theorem C6_boundary_snap_amended_witness :
    List.Chain (· < ·) (lastPeriodOf cfg0 initState)
        ((runTrace cfg0 2 initState [1/2, 1/2]).filterMap
          (fun r => if r.snapped = true then some r.this_period else none)) ∧
      ∀ r ∈ runTrace cfg0 2 initState [1/2, 1/2], r.snapped = true →
        r.clock = (r.this_period : ℚ) * mgmt_fee_period cfg0 :=
  C6_boundary_snap_amended cfg0 2 [1/2, 1/2] (by norm_num [Config.valid, cfg0])
    (by intro u hu; fin_cases hu <;> norm_num)

/-- Claim C4, counterexample.  cfgD is accepted (clock_drift may be any
float, here -2), yet in the run with draws 1/2, 1/2 the committed
boundary tick has a negative effective time delta, its mint is negative,
and fund_shares ends strictly below init_shares — so fund_shares is
neither non-decreasing nor bounded below by init_shares. -/
theorem C4_negative_drift_counterexample :
    cfgD.valid ∧
    (runState cfgD 2 initState [1/2, 1/2]).fund_shares < ((init_shares : ℚ) : ℝ) := by
  refine ⟨by norm_num [Config.valid, cfgD], ?_⟩
  simp only [runState]
  rw [sD2_fs, init_shares_cast]
  have hg1 : (2:ℝ) ^ (((-(91/216) : ℚ)) : ℝ) < 1 := by
    have hneg : (((-(91/216) : ℚ)) : ℝ) < 0 := by
      push_cast
      norm_num
    calc (2:ℝ) ^ (((-(91/216) : ℚ)) : ℝ) < (2:ℝ) ^ (0:ℝ) :=
          Real.rpow_lt_rpow_of_exponent_lt (by norm_num) hneg
      _ = 1 := Real.rpow_zero 2
  nlinarith [hg1]

/-- Claim C4, amended: for every accepted configuration whose clock drift
is at least -1 (so effective time deltas are non-negative), along every
run from the initial state fund_shares and cumulative tx fees are
non-decreasing tick over tick and fund_shares never drops below
init_shares; for drift below -1 a committed tick's mint is negative and
the claim fails. -/
theorem C4_monotonicity_amended (cfg : Config) (rate : ℚ) (us : List ℚ)
    (hv : cfg.valid) (hr : inflation_rate cfg.mgmt_fee = some rate)
    (hd : -1 ≤ cfg.clock_drift) (hus : ∀ u ∈ us, 0 ≤ u) :
    List.Chain' (fun a b => a.fund_shares ≤ b.fund_shares ∧ a.tx_fees ≤ b.tx_fees)
        (runStates cfg rate initState us) ∧
      ∀ t ∈ runStates cfg rate initState us, ((init_shares : ℚ) : ℝ) ≤ t.fund_shares :=
  mono_chain cfg hv (one_le_rate hv hr) hd us initState (loopInv_init hv)
    ⟨le_refl _, fun _ => rfl⟩ hus

theorem C4_monotonicity_amended_witness :
    List.Chain' (fun a b => a.fund_shares ≤ b.fund_shares ∧ a.tx_fees ≤ b.tx_fees)
        (runStates cfg0 2 initState [1/2, 1/2]) ∧
      ∀ t ∈ runStates cfg0 2 initState [1/2, 1/2],
        ((init_shares : ℚ) : ℝ) ≤ t.fund_shares :=
  C4_monotonicity_amended cfg0 2 [1/2, 1/2] (by norm_num [Config.valid, cfg0])
    rate_cfg0_eq (by norm_num [cfg0]) (by intro u hu; fin_cases hu <;> norm_num)

/-- Claim C5, counterexample.  The fee value 1.0 passes the percentage
validation (the accepted range [0.0, 1.0] is inclusive), but the
inflation-rate division 1/(1 - mgmt_fee) is then undefined: the program
dies with a ZeroDivisionError before the loop instead of running to
completion, so "no division is undefined for any accepted mgmt_fee
value" is false. -/
theorem C5_fee_one_counterexample :
    percentageOk 1 = true ∧ inflation_rate 1 = none := by
  constructor
  · norm_num [percentageOk]
  · unfold inflation_rate
    rw [if_pos (by norm_num)]

/-- Claim C5, amended: every fee in [0, 1) passes the percentage check
and makes the inflation-rate division defined, with value 1/(1-fee), at
least 1; and on every reachable non-bootstrap tick the elapsed-days
divisor of the throttle is strictly positive, so that division is
defined too.  At the accepted boundary value fee = 1 the inflation-rate
division is undefined and the simulation never starts. -/
theorem C5_division_defined_amended (fee : ℚ) (h0 : 0 ≤ fee) (h1 : fee < 1) :
    percentageOk fee = true ∧
    inflation_rate fee = some (1 / (1 - fee)) ∧
    1 ≤ 1 / (1 - fee) ∧
    ∀ (cfg : Config) (u : ℚ) (s : SimState), cfg.valid → LoopInv cfg s → 0 ≤ u →
      ¬ s.last_timestamp = 0 → 0 < simDays cfg u s := by
  refine ⟨?_, ?_, ?_, ?_⟩
  · have e1 : decide (fee < 0) = false := decide_eq_false (not_lt.mpr h0)
    have e2 : decide (1 < fee) = false := decide_eq_false (not_lt.mpr h1.le)
    unfold percentageOk
    rw [e1, e2]
    rfl
  · unfold inflation_rate
    rw [if_neg (by intro h; linarith)]
  · have hpos : 0 < 1 - fee := by linarith
    rw [le_div_iff₀ hpos]
    linarith
  · intro cfg u s hv hs hu hne
    have hlast : 0 < s.last_timestamp := lt_of_le_of_ne hs.1 (Ne.symm hne)
    have hcl := tickClock_ge_last hv hu hs
    unfold simDays
    apply div_pos (by linarith) (by norm_num)

theorem C5_division_defined_amended_witness :
    percentageOk (1/50) = true ∧
    inflation_rate (1/50) = some (1 / (1 - 1/50)) ∧
    1 ≤ 1 / (1 - (1/50 : ℚ)) ∧
    ∀ (cfg : Config) (u : ℚ) (s : SimState), cfg.valid → LoopInv cfg s → 0 ≤ u →
      ¬ s.last_timestamp = 0 → 0 < simDays cfg u s :=
  C5_division_defined_amended (1/50) (by norm_num) (by norm_num)

/-- Claim C1, counterexample.  In the run of cfgT (zero fee tolerance)
with draws 1/2, 1/2, the second tick is a post-bootstrap period-boundary
tick (new_period = true) and it IS throttled: it is counted as skipped,
its summary skip count is 1 and its mint count 0 (the boundary summary
reports a skip, not a mint), and no per-event fee was charged — the
cumulative tx fees remain 0 after the run. -/
theorem C1_boundary_throttled_counterexample :
    cfgT.valid ∧
    (runTrace cfgT 2 initState [1/2, 1/2]).map (fun r => (r.new_period, r.skipped))
      = [(true, false), (true, true)] ∧
    (runTrace cfgT 2 initState [1/2, 1/2]).map TickRecord.summary_num_skips = [0, 1] ∧
    (runTrace cfgT 2 initState [1/2, 1/2]).map TickRecord.summary_num_mints = [0, 0] ∧
    (runState cfgT 2 initState [1/2, 1/2]).tx_fees = 0 := by
  refine ⟨by norm_num [Config.valid, cfgT], ?_, ?_, ?_, ?_⟩
  · simp only [runTrace, List.map_cons, List.map_nil]
    rw [recT1_new_period, recT1_skipped, recT2_new_period, recT2_skipped]
  · simp only [runTrace, List.map_cons, List.map_nil]
    rw [recT1_sns, recT2_sns]
  · simp only [runTrace, List.map_cons, List.map_nil]
    rw [recT1_snm, recT2_snm]
  · simp only [runState]
    exact sT2_tx

/-- Claim C1, amended: a tick with new_period = true always commits
last_committed_clock to its (snapped) clock, and the bootstrap tick is
never throttled; but a post-bootstrap boundary tick is still subject to
the throttle: when it is skipped, its mint is 0, the skip counter in the
summary is incremented, the mint counter is not, and the per-event fee is
NOT charged — only the clock commit is forced. -/
theorem C1_boundary_commit_amended (cfg : Config) (rate u : ℚ) (s : SimState)
    (hnp : (step cfg rate u s).2.new_period = true) :
    (step cfg rate u s).1.last_timestamp = (step cfg rate u s).2.clock ∧
    (s.last_timestamp = 0 → (step cfg rate u s).2.skipped = false) ∧
    ((step cfg rate u s).2.skipped = true →
      (step cfg rate u s).1.tx_fees = s.tx_fees ∧
      (step cfg rate u s).2.mint = 0 ∧
      (step cfg rate u s).2.summary_num_skips = s.num_skips + 1 ∧
      (step cfg rate u s).2.summary_num_mints = s.num_mints) := by
  by_cases h1 : s.last_timestamp = 0
  · rw [step_boot_eq cfg rate u s h1]
    exact ⟨rfl, fun _ => rfl, fun hsk => absurd hsk (by simp)⟩
  · by_cases h2 : cfg.fee_tolerance < usdPerDay cfg u s
    · rw [step_skip_eq cfg rate u s h1 h2] at hnp ⊢
      have hlt : lastPeriodOf cfg s < thisPeriod cfg u s := by simpa using hnp
      refine ⟨?_, fun hl => absurd hl h1, fun _ => ⟨rfl, rfl, rfl, rfl⟩⟩
      show (if lastPeriodOf cfg s < thisPeriod cfg u s then tickClock cfg u s
        else s.last_timestamp) = tickClock cfg u s
      rw [if_pos hlt]
    · rw [step_commit_eq cfg rate u s h1 h2]
      exact ⟨rfl, fun hl => absurd hl h1, fun hsk => absurd hsk (by simp)⟩

theorem C1_boundary_commit_amended_witness :
    (step cfgT 2 (1/2) (step cfgT 2 (1/2) initState).1).1.last_timestamp
        = (step cfgT 2 (1/2) (step cfgT 2 (1/2) initState).1).2.clock ∧
    ((step cfgT 2 (1/2) initState).1.last_timestamp = 0 →
      (step cfgT 2 (1/2) (step cfgT 2 (1/2) initState).1).2.skipped = false) ∧
    ((step cfgT 2 (1/2) (step cfgT 2 (1/2) initState).1).2.skipped = true →
      (step cfgT 2 (1/2) (step cfgT 2 (1/2) initState).1).1.tx_fees
          = (step cfgT 2 (1/2) initState).1.tx_fees ∧
      (step cfgT 2 (1/2) (step cfgT 2 (1/2) initState).1).2.mint = 0 ∧
      (step cfgT 2 (1/2) (step cfgT 2 (1/2) initState).1).2.summary_num_skips
          = (step cfgT 2 (1/2) initState).1.num_skips + 1 ∧
      (step cfgT 2 (1/2) (step cfgT 2 (1/2) initState).1).2.summary_num_mints
          = (step cfgT 2 (1/2) initState).1.num_mints) :=
  C1_boundary_commit_amended cfgT 2 (1/2) (step cfgT 2 (1/2) initState).1 recT2_new_period

/-- Claim C7, counterexample.  In the run of cfgT with draws 1/2, 1/2 the
second tick is post-bootstrap, is a boundary tick (so it falls under the
claim's "every other post-bootstrap tick" clause), and its projected rate
exceeds the tolerance; yet the per-event fee is NOT added (tx fees stay
0) and the mint counter is NOT incremented (the summary reports 0 mints),
even though last_committed_clock does advance to 86400. -/
theorem C7_boundary_skip_counterexample :
    cfgT.valid ∧
    (step cfgT 2 (1/2) (step cfgT 2 (1/2) initState).1).2.bootstrap = false ∧
    (step cfgT 2 (1/2) (step cfgT 2 (1/2) initState).1).2.new_period = true ∧
    cfgT.fee_tolerance
        < (step cfgT 2 (1/2) (step cfgT 2 (1/2) initState).1).2.usd_per_day ∧
    (step cfgT 2 (1/2) (step cfgT 2 (1/2) initState).1).1.tx_fees
        = (step cfgT 2 (1/2) initState).1.tx_fees ∧
    (step cfgT 2 (1/2) (step cfgT 2 (1/2) initState).1).2.summary_num_mints = 0 ∧
    (step cfgT 2 (1/2) (step cfgT 2 (1/2) initState).1).1.last_timestamp = 86400 := by
  refine ⟨by norm_num [Config.valid, cfgT], recT2_bootstrap, recT2_new_period, ?_, ?_,
    recT2_snm, sT2_last⟩
  · rw [recT2_usd]
    norm_num [cfgT]
  · rw [sT2_tx, sT1_tx]

/-- Claim C7, amended: on every post-bootstrap tick the skip decision is
exactly "projected rate exceeds tolerance"; a skipped tick has mint 0,
unchanged fund_shares and tx fees, and its summary skip counter
incremented, and it leaves last_committed_clock unchanged precisely when
it is not a boundary tick (a skipped boundary tick still advances it); a
committed tick charges the per-event fee, increments the mint counter and
advances last_committed_clock to the tick's clock. -/
theorem C7_throttle_frame_amended (cfg : Config) (rate u : ℚ) (s : SimState)
    (hpost : ¬ s.last_timestamp = 0) :
    ((step cfg rate u s).2.skipped = true ↔ cfg.fee_tolerance < usdPerDay cfg u s) ∧
    ((step cfg rate u s).2.skipped = true →
      (step cfg rate u s).2.mint = 0 ∧
      (step cfg rate u s).1.fund_shares = s.fund_shares ∧
      (step cfg rate u s).1.tx_fees = s.tx_fees ∧
      (step cfg rate u s).2.summary_num_skips = s.num_skips + 1 ∧
      ((step cfg rate u s).2.new_period = false →
        (step cfg rate u s).1.last_timestamp = s.last_timestamp ∧
        (step cfg rate u s).1.num_skips = s.num_skips + 1) ∧
      ((step cfg rate u s).2.new_period = true →
        (step cfg rate u s).1.last_timestamp = (step cfg rate u s).2.clock)) ∧
    ((step cfg rate u s).2.skipped = false →
      (step cfg rate u s).1.tx_fees = s.tx_fees + this_tx_fee ∧
      (step cfg rate u s).2.summary_num_mints = s.num_mints + 1 ∧
      (step cfg rate u s).1.last_timestamp = (step cfg rate u s).2.clock) := by
  by_cases h2 : cfg.fee_tolerance < usdPerDay cfg u s
  · rw [step_skip_eq cfg rate u s hpost h2]
    refine ⟨⟨fun _ => h2, fun _ => rfl⟩, fun _ => ?_, fun h => absurd h (by simp)⟩
    refine ⟨rfl, by simp, rfl, rfl, ?_, ?_⟩
    · intro hnp
      have hlt : ¬ lastPeriodOf cfg s < thisPeriod cfg u s := by simpa using hnp
      constructor
      · show (if lastPeriodOf cfg s < thisPeriod cfg u s then tickClock cfg u s
          else s.last_timestamp) = s.last_timestamp
        rw [if_neg hlt]
      · show (if lastPeriodOf cfg s < thisPeriod cfg u s then 0
          else s.num_skips + 1) = s.num_skips + 1
        rw [if_neg hlt]
    · intro hnp
      have hlt : lastPeriodOf cfg s < thisPeriod cfg u s := by simpa using hnp
      show (if lastPeriodOf cfg s < thisPeriod cfg u s then tickClock cfg u s
        else s.last_timestamp) = tickClock cfg u s
      rw [if_pos hlt]
  · rw [step_commit_eq cfg rate u s hpost h2]
    exact ⟨⟨fun h => absurd h (by simp), fun h => absurd h h2⟩,
      fun h => absurd h (by simp), fun _ => ⟨rfl, rfl, rfl⟩⟩

theorem C7_throttle_frame_amended_witness :
    ((step cfgT 2 (1/2) sB0).2.skipped = true
        ↔ cfgT.fee_tolerance < usdPerDay cfgT (1/2) sB0) ∧
    ((step cfgT 2 (1/2) sB0).2.skipped = true →
      (step cfgT 2 (1/2) sB0).2.mint = 0 ∧
      (step cfgT 2 (1/2) sB0).1.fund_shares = sB0.fund_shares ∧
      (step cfgT 2 (1/2) sB0).1.tx_fees = sB0.tx_fees ∧
      (step cfgT 2 (1/2) sB0).2.summary_num_skips = sB0.num_skips + 1 ∧
      ((step cfgT 2 (1/2) sB0).2.new_period = false →
        (step cfgT 2 (1/2) sB0).1.last_timestamp = sB0.last_timestamp ∧
        (step cfgT 2 (1/2) sB0).1.num_skips = sB0.num_skips + 1) ∧
      ((step cfgT 2 (1/2) sB0).2.new_period = true →
        (step cfgT 2 (1/2) sB0).1.last_timestamp = (step cfgT 2 (1/2) sB0).2.clock)) ∧
    ((step cfgT 2 (1/2) sB0).2.skipped = false →
      (step cfgT 2 (1/2) sB0).1.tx_fees = sB0.tx_fees + this_tx_fee ∧
      (step cfgT 2 (1/2) sB0).2.summary_num_mints = sB0.num_mints + 1 ∧
      (step cfgT 2 (1/2) sB0).1.last_timestamp = (step cfgT 2 (1/2) sB0).2.clock) :=
  C7_throttle_frame_amended cfgT 2 (1/2) sB0 (by norm_num [sB0])

/-- Claim C2, amended: with zero clock drift, for every segment of
consecutive committed non-bootstrap ticks that starts at a committed
period boundary k * mgmt_fee_period and ends with the committed boundary
at (k+1) * mgmt_fee_period, the product of the per-tick growth factors is
exactly the inflation rate.  The first period does not satisfy this: it
starts at the bootstrap clock t0 (normally > 0), and its product is
rate^((P - t0)/P), strictly below the rate. -/
theorem C2_telescoping_amended (cfg : Config) (rate : ℚ) (k : ℤ) (us : List ℚ)
    (s : SimState) (hv : cfg.valid) (hr : inflation_rate cfg.mgmt_fee = some rate)
    (hdrift : cfg.clock_drift = 0)
    (hstart : s.last_timestamp = (k : ℚ) * mgmt_fee_period cfg)
    (hend : (runState cfg rate s us).last_timestamp
      = ((k + 1 : ℤ) : ℚ) * mgmt_fee_period cfg)
    (htr : ∀ r ∈ runTrace cfg rate s us, r.bootstrap = false ∧ r.skipped = false) :
    ((runTrace cfg rate s us).map TickRecord.growth).prod = (rate : ℝ) := by
  have hP := mgmt_fee_period_pos hv
  have hPne := hP.ne'
  have hrate := rate_pos hv hr
  have ht := telescope cfg hrate us s hPne htr
  rw [hend, hstart, hdrift] at ht
  rw [ht]
  have e1 : (((k + 1 : ℤ) : ℚ) * mgmt_fee_period cfg - (k : ℚ) * mgmt_fee_period cfg)
      * (1 + 0) / mgmt_fee_period cfg = 1 := by
    push_cast
    field_simp
    ring
  rw [e1, Rat.cast_one, Real.rpow_one]

theorem C2_telescoping_amended_witness :
    ((runTrace cfg0 2 sB0 [1/2, 1/2]).map TickRecord.growth).prod = ((2 : ℚ) : ℝ) :=
  C2_telescoping_amended cfg0 2 1 [1/2, 1/2] sB0 (by norm_num [Config.valid, cfg0])
    rate_cfg0_eq rfl
    (by rw [P_cfg0]; norm_num [sB0])
    (by simp only [runState]; rw [sB2_last, P_cfg0]; norm_num)
    (by
      intro r hr
      simp only [runTrace, List.mem_cons, List.not_mem_nil, or_false] at hr
      rcases hr with rfl | rfl
      · exact ⟨recB1_bootstrap, recB1_skipped⟩
      · exact ⟨recB2_bootstrap, recB2_skipped⟩)

/-- Claim C10, counterexample.  cfgN (noise = mint = 300) passes the
startup validation; with first draw u = 0 the first wait is exactly 0, so
the bootstrap tick happens at clock 0 — not strictly positive — and the
committed clock after the bootstrap is still 0. -/
theorem C10_zero_wait_counterexample :
    cfgN.valid ∧
    (step cfgN 2 0 initState).2.bootstrap = true ∧
    (step cfgN 2 0 initState).2.clock = 0 ∧
    (step cfgN 2 0 initState).1.last_timestamp = 0 :=
  ⟨by norm_num [Config.valid, cfgN], recN1_bootstrap, recN1_clock, sN1_last⟩

/-- Claim C10, amended: after the bootstrap tick, last_committed_clock
equals the bootstrap tick's clock; the bootstrap applies mint 0; the
bootstrap clock is non-negative, and strictly positive whenever
noise < mint (with noise = mint, which the code accepts, a zero draw
gives bootstrap clock 0).  Consequently, for a skip-free zero-drift
continuation whose committed clock first reaches the period boundary,
the first period's growth-factor product is rate^((P - t0)/P) with t0 the
bootstrap clock, an exponent strictly below 1 whenever t0 > 0 — the
interval from simulation start to the bootstrap contributes no mint. -/
theorem C10_bootstrap_commit_amended (cfg : Config) (rate u : ℚ) (us : List ℚ)
    (hv : cfg.valid) (hu : 0 ≤ u) (hrate : 0 < rate) (hdrift : cfg.clock_drift = 0)
    (htr : ∀ r ∈ runTrace cfg rate (step cfg rate u initState).1 us,
      r.bootstrap = false ∧ r.skipped = false)
    (hend : (runState cfg rate (step cfg rate u initState).1 us).last_timestamp
      = mgmt_fee_period cfg) :
    (step cfg rate u initState).1.last_timestamp = (step cfg rate u initState).2.clock ∧
    (step cfg rate u initState).2.mint = 0 ∧
    0 ≤ (step cfg rate u initState).2.clock ∧
    (cfg.mint_period_noise < cfg.mint_period → 0 < (step cfg rate u initState).2.clock) ∧
    ((runTrace cfg rate (step cfg rate u initState).1 us).map TickRecord.growth).prod
      = (rate : ℝ) ^ ((((mgmt_fee_period cfg - (step cfg rate u initState).2.clock)
          / mgmt_fee_period cfg : ℚ)) : ℝ) ∧
    (0 < (step cfg rate u initState).2.clock →
      (mgmt_fee_period cfg - (step cfg rate u initState).2.clock)
        / mgmt_fee_period cfg < 1) := by
  have hP := mgmt_fee_period_pos hv
  have hInit := loopInv_init hv
  have hb1 : (step cfg rate u initState).1.last_timestamp
      = (step cfg rate u initState).2.clock := by
    rw [step_boot_eq cfg rate u initState rfl]
  refine ⟨hb1, by rw [step_boot_eq cfg rate u initState rfl]; rfl, ?_, ?_, ?_, ?_⟩
  · rw [step_clock]
    exact tickClock_nonneg hv hu hInit
  · intro hnm
    rw [step_clock]
    by_cases hlt : lastPeriodOf cfg initState < thisPeriod cfg u initState
    · unfold tickClock
      rw [if_pos hlt]
      have hlp0 : 0 ≤ lastPeriodOf cfg initState := lastPeriodOf_nonneg hv hInit
      have htp1 : (0:ℚ) < (thisPeriod cfg u initState : ℚ) := by
        exact_mod_cast lt_of_le_of_lt hlp0 hlt
      exact mul_pos htp1 hP
    · unfold tickClock
      rw [if_neg hlt]
      unfold proposedTimestamp
      have hts : initState.this_timestamp = 0 := rfl
      rw [hts, zero_add]
      unfold waitTime
      have hn : (0 : ℚ) < (cfg.mint_period_noise : ℚ) := by exact_mod_cast hv.2.2.2.2.1
      have hnm' : (cfg.mint_period_noise : ℚ) < (cfg.mint_period : ℚ) := by
        exact_mod_cast hnm
      have h1 : (-1 : ℚ) ≤ u * 2 - 1 := by linarith
      have h2 : (-1 : ℚ) * (cfg.mint_period_noise : ℚ)
          ≤ (u * 2 - 1) * (cfg.mint_period_noise : ℚ) :=
        mul_le_mul_of_nonneg_right h1 hn.le
      linarith
  · have ht := telescope cfg hrate us (step cfg rate u initState).1 hP.ne' htr
    rw [hend, hdrift, hb1] at ht
    rw [ht]
    have e1 : (mgmt_fee_period cfg - (step cfg rate u initState).2.clock) * (1 + 0)
        / mgmt_fee_period cfg
        = (mgmt_fee_period cfg - (step cfg rate u initState).2.clock)
          / mgmt_fee_period cfg := by
      ring
    rw [e1]
  · intro hpos
    rw [div_lt_one hP]
    linarith

theorem C10_bootstrap_commit_amended_witness :
    (step cfg0 2 (1/2) initState).1.last_timestamp
        = (step cfg0 2 (1/2) initState).2.clock ∧
    (step cfg0 2 (1/2) initState).2.mint = 0 ∧
    0 ≤ (step cfg0 2 (1/2) initState).2.clock ∧
    (cfg0.mint_period_noise < cfg0.mint_period →
      0 < (step cfg0 2 (1/2) initState).2.clock) ∧
    ((runTrace cfg0 2 (step cfg0 2 (1/2) initState).1 [1/2]).map TickRecord.growth).prod
      = ((2:ℚ) : ℝ) ^ ((((mgmt_fee_period cfg0 - (step cfg0 2 (1/2) initState).2.clock)
          / mgmt_fee_period cfg0 : ℚ)) : ℝ) ∧
    (0 < (step cfg0 2 (1/2) initState).2.clock →
      (mgmt_fee_period cfg0 - (step cfg0 2 (1/2) initState).2.clock)
        / mgmt_fee_period cfg0 < 1) :=
  C10_bootstrap_commit_amended cfg0 2 (1/2) [1/2] (by norm_num [Config.valid, cfg0])
    (by norm_num) (by norm_num) rfl
    (by
      intro r hr
      simp only [runTrace, List.mem_cons, List.not_mem_nil, or_false] at hr
      rcases hr with rfl
      exact ⟨recA2_bootstrap, recA2_skipped⟩)
    (by simp only [runState]; rw [sA2_last, P_cfg0])
